import Mathlib

/-!
Verification of the miri interpreter's memory subsystem and frame stack
(src/memory.rs, src/interpreter/mod.rs, src/interpreter/step.rs).

Shallow embedding conventions:
* `usize`/`u64` values (offsets, sizes, allocation ids) are `Nat`; arithmetic
  that saturates in the source (`saturating_sub`) is Lean's truncated `Nat`
  subtraction, which coincides with it.  Places where Rust `usize` arithmetic
  could wrap/panic are noted next to the definition.
* `HashMap<AllocId, Allocation>` is an association list `List (Nat × Allocation)`
  with unique keys; `BTreeMap<usize, AllocId>` is an association list kept in
  ascending key order by `relocInsert` (mirroring the b-tree's iteration order).
* `UndefMask` (a packed bit vector with an explicit `len`) is a `List Bool`
  whose length is the mask's `len`; bits past `len` are never consulted by the
  source within its invariants, so a plain list is a faithful model.
* Fallible operations return `Except EvalError α`; operations that take
  `&mut self` in Rust additionally return the (possibly partially) mutated
  `Memory`, because the source's mutations performed before an early `?` return
  persist.
-/

namespace Miri

/-- A `Pointer` from memory.rs: allocation id (`AllocId(u64)` modelled as `Nat`)
plus byte offset. -/
structure Pointer where
  alloc_id : Nat
  offset : Nat
deriving Repr, DecidableEq

/-- `Pointer::offset(self, i)` from memory.rs, restricted to the non-negative
offsets the sources use (`reallocate` and `check_relocation_edges` both pass
values that originate from `usize` sizes). -/
def Pointer.offsetBy (p : Pointer) (i : Nat) : Pointer :=
  { p with offset := p.offset + i }

/-- `EvalError` variants, as enumerated by spec §7 and used by the sources
(the defining error.rs is not part of the source snapshot; the constructors
below carry exactly the payloads the call sites in memory.rs pass).
`ModifiedConstantMemory` is the failure of a write into a frozen allocation;
it is modelled from the spec (§4.7: a *Freeze* makes further writes fail). -/
inductive EvalError where
  | OutOfMemory (allocation_size memory_size memory_usage : Nat)
  | PointerOutOfBounds (ptr : Pointer) (size allocation_size : Nat)
  | AlignmentCheckFailed (required has : Nat)
  | ReadPointerAsBytes
  | ReadBytesAsPointer
  | ReadUndefBytes
  | DanglingPointerDeref
  | DerefFunctionPointer
  | ExecuteMemory
  | InvalidFunctionPointer
  | InvalidBool
  | StackFrameLimitReached
  | ModifiedConstantMemory
  | Unimplemented (msg : String)
deriving Repr, DecidableEq

/-- Target endianess (`layout::Endian`). -/
inductive Endian where
  | Little
  | Big
deriving Repr, DecidableEq

/-- The fragment of `TargetDataLayout` consulted by memory.rs: pointer size in
bytes, endianess, and the ABI alignments used by `check_int_align`,
`read_bool`/`write_bool` and the float accessors. -/
structure TargetDataLayout where
  pointer_size : Nat
  endian : Endian
  i1_align : Nat
  i8_align : Nat
  i16_align : Nat
  i32_align : Nat
  i64_align : Nat
  f32_align : Nat
  f64_align : Nat
deriving Repr, DecidableEq

/-- An `Allocation` from memory.rs: byte buffer, relocation map (offset →
allocation id, ascending keys), init mask (one bit per byte), alignment. -/
structure Allocation where
  bytes : List Nat
  relocations : List (Nat × Nat)
  undef_mask : List Bool
  align : Nat
deriving Repr, DecidableEq

/-- The interpreter `Memory`.  `functions` keeps only the ids of function
allocations (their `FunctionDefinition` payload is irrelevant to the claims).
`frozen` is modelled from the spec: `Memory::freeze` is called by
`pop_stack_frame` (interpreter/mod.rs line 369) but its definition is absent
from the source snapshot; per spec §4.7 a *Freeze* "transitions the resulting
allocation to read-only — further writes fail", so we record the frozen ids
and make the write path (`get_bytes_mut`) fail on them. -/
structure Memory where
  alloc_map : List (Nat × Allocation)
  memory_usage : Nat
  memory_size : Nat
  functions : List Nat
  next_id : Nat
  layout : TargetDataLayout
  frozen : List Nat
deriving Repr, DecidableEq

/-! ### Association-list primitives (HashMap / BTreeMap operations) -/

/-- Key lookup in an association list (`HashMap::get` / `BTreeMap::get`). -/
def lookupA {α : Type} : List (Nat × α) → Nat → Option α
  | [], _ => none
  | (k', v) :: rest, k => if k' = k then some v else lookupA rest k

/-- Replace the value stored under an existing key (in-place mutation through
`get_mut`); absent keys are left untouched. -/
def setA {α : Type} : List (Nat × α) → Nat → α → List (Nat × α)
  | [], _, _ => []
  | (k', v') :: rest, k, v =>
    if k' = k then (k, v) :: rest else (k', v') :: setA rest k v

/-- `HashMap::remove`. -/
def removeA {α : Type} (l : List (Nat × α)) (k : Nat) : List (Nat × α) :=
  l.filter (fun kv => decide (kv.1 ≠ k))

/-! ### UndefMask operations (memory.rs lines 749-812), over `List Bool` -/

/-- `UndefMask::set_range_inbounds`: set every index in `[start, stop)`.  The
source loops `set i` over the half-open range; this recursion realizes the same
pointwise update. -/
def setRangeInbounds : List Bool → Nat → Nat → Bool → List Bool
  | [], _, _, _ => []
  | v :: rest, start, stop, b =>
    (if start = 0 ∧ 0 < stop then b else v) :: setRangeInbounds rest (start - 1) (stop - 1) b

/-- `UndefMask::set_range`: grow by `stop - len` with `b` when `stop` exceeds
the mask length, then set `[start, stop)` in bounds. -/
def maskSetRange (mask : List Bool) (start stop : Nat) (b : Bool) : List Bool :=
  setRangeInbounds
    (if stop > mask.length then mask ++ List.replicate (stop - mask.length) b else mask)
    start stop b

/-- `UndefMask::is_range_defined`: false when `stop` exceeds the mask length,
otherwise every bit of `[start, stop)` must be set. -/
def is_range_defined (mask : List Bool) (start stop : Nat) : Bool :=
  if stop > mask.length then false
  else (List.range' start (stop - start)).all (fun i => mask.getD i false)

/-- The write loop of `Memory::copy_undef_mask`: store the saved bits `v`
starting at index `start` (`undef_mask.set(dest.offset + i, defined)`). -/
def maskSetList : List Bool → Nat → List Bool → List Bool
  | mask, _, [] => mask
  | mask, start, b :: rest => maskSetList (mask.set start b) (start + 1) rest

/-! ### Endian-aware integer encoding (memory.rs lines 678-704) -/

/-- Little-endian base-256 encoding of `n` into `len` bytes (byteorder's
`write_uint::<LittleEndian>`; the value is reduced mod `256 ^ len`, which is
the identity on values that fit, the only case the source reaches). -/
def writeTargetUintLE : Nat → Nat → List Nat
  | 0, _ => []
  | len + 1, n => (n % 256) :: writeTargetUintLE len (n / 256)

/-- Little-endian base-256 decoding (byteorder's `read_uint::<LittleEndian>`). -/
def readTargetUintLE : List Nat → Nat
  | [] => 0
  | b :: rest => b + 256 * readTargetUintLE rest

/-- `write_target_uint`: dispatch on endianess; big-endian is the byte-reversed
little-endian encoding. -/
def write_target_uint (e : Endian) (len n : Nat) : List Nat :=
  match e with
  | .Little => writeTargetUintLE len n
  | .Big => (writeTargetUintLE len n).reverse

/-- `read_target_uint`. -/
def read_target_uint (e : Endian) (source : List Nat) : Nat :=
  match e with
  | .Little => readTargetUintLE source
  | .Big => readTargetUintLE source.reverse

/-- `read_target_int`: sign-extending read (byteorder's `read_int`). -/
def read_target_int (e : Endian) (source : List Nat) : Int :=
  let u := read_target_uint e source
  if 2 * u < 2 ^ (8 * source.length) then (u : Int) else (u : Int) - 2 ^ (8 * source.length)

/-- `write_target_int`: two's-complement encoding of the low `8 * len` bits. -/
def write_target_int (e : Endian) (len : Nat) (n : Int) : List Nat :=
  write_target_uint e len (n % ((2 ^ (8 * len) : Nat) : Int)).toNat

/-! ### Relocation-map helpers -/

/-- The range query of `Memory::relocations` (memory.rs lines 588-594): keys in
`[offset - (pointer_size - 1), offset + size)`; `Nat` subtraction is the
source's `saturating_sub`. -/
def relocRange (ps : Nat) (relocs : List (Nat × Nat)) (offset size : Nat) :
    List (Nat × Nat) :=
  relocs.filter (fun kv =>
    decide (offset - (ps - 1) ≤ kv.1) && decide (kv.1 < offset + size))

/-- The removal loop of `Memory::clear_relocations` (`for k in keys { remove k }`). -/
def relocRemoveKeys (relocs : List (Nat × Nat)) (keys : List Nat) : List (Nat × Nat) :=
  keys.foldl (fun rs k => rs.filter (fun kv => decide (kv.1 ≠ k))) relocs

/-- `BTreeMap::insert`, keeping keys in ascending order and replacing an
existing binding. -/
def relocInsert : List (Nat × Nat) → Nat → Nat → List (Nat × Nat)
  | [], k, v => [(k, v)]
  | (k', v') :: rest, k, v =>
    if k < k' then (k, v) :: (k', v') :: rest
    else if k = k' then (k, v) :: rest
    else (k', v') :: relocInsert rest k v

/-- `BTreeMap::extend`: insert every binding in order. -/
def relocExtend (relocs news : List (Nat × Nat)) : List (Nat × Nat) :=
  news.foldl (fun rs kv => relocInsert rs kv.1 kv.2) relocs

/-- Minimum of a list of keys.  A `BTreeMap` range iterates keys in ascending
order, so the source's `keys.first()` is the minimum key of the range. -/
def listMin : List Nat → Nat
  | [] => 0
  | x :: xs => xs.foldl Nat.min x

/-- Maximum of a list of keys (the source's `keys.last()`). -/
def listMax : List Nat → Nat
  | [] => 0
  | x :: xs => xs.foldl Nat.max x

/-- Overwrite `src.length` bytes of `l` starting at `off` (the effect of
writing through the mutable slice returned by `get_bytes_mut` /
`get_bytes_unchecked_mut`). -/
def listWriteRange (l : List Nat) (off : Nat) (src : List Nat) : List Nat :=
  l.take off ++ src ++ l.drop (off + src.length)

/-! ### Alignment checking (memory.rs lines 54-72) -/

/-- The diagnostic loop of `Pointer::check_align`: the largest power of two
dividing `best` (`while best > 0 && best & 1 == 0 { best >>= 1; i <<= 1 }`).
The loop halves `best` each iteration, so `best` itself is enough fuel; the
fuel only makes the recursion structural. -/
def alignHasAux : Nat → Nat → Nat
  | 0, _ => 1
  | fuel + 1, best =>
    if 0 < best ∧ best % 2 = 0 then 2 * alignHasAux fuel (best / 2) else 1

/-- The `has` field reported by a failing `check_align`. -/
def alignHas (best : Nat) : Nat :=
  alignHasAux best best

/-- `Pointer::check_align`. -/
def Pointer.check_align (p : Pointer) (align : Nat) : Except EvalError Unit :=
  if p.offset % align = 0 then .ok ()
  else .error (.AlignmentCheckFailed align (alignHas p.offset))

/-! ### Memory: allocation accessors (memory.rs lines 280-310) -/

/-- `Memory::get`: a byte allocation, else `DerefFunctionPointer` for function
ids, else `DanglingPointerDeref`.  `Memory::get_mut` performs the same lookup
(the mutators below re-look-up and store back through `setAlloc`). -/
def Memory.get (m : Memory) (id : Nat) : Except EvalError Allocation :=
  match lookupA m.alloc_map id with
  | some alloc => .ok alloc
  | none =>
    if id ∈ m.functions then .error .DerefFunctionPointer
    else .error .DanglingPointerDeref

/-- Store back an allocation mutated through `get_mut`. -/
def Memory.setAlloc (m : Memory) (id : Nat) (alloc : Allocation) : Memory :=
  { m with alloc_map := setA m.alloc_map id alloc }

/-- `Memory::pointer_size`. -/
def Memory.pointer_size (m : Memory) : Nat :=
  m.layout.pointer_size

/-- `Memory::endianess`. -/
def Memory.endianess (m : Memory) : Endian :=
  m.layout.endian

/-! ### Memory: allocation and deallocation (memory.rs lines 157-245) -/

/-- `Memory::allocate`: ZSTs get the canonical pointer `(0, 0)`; otherwise the
budget check, `memory_usage += size`, and a fresh allocation of
`size + align` zeroed, fully-undefined bytes whose returned offset is `align`.
The budget check's `memory_size - memory_usage` is `usize` subtraction; the
sources keep `memory_usage ≤ memory_size` on every path through `allocate`,
where truncated `Nat` subtraction agrees with it. -/
def Memory.allocate (m : Memory) (size align : Nat) :
    Except EvalError Pointer × Memory :=
  if size = 0 then (.ok { alloc_id := 0, offset := 0 }, m)
  else
    let least_aligned_size := size + align
    if m.memory_size - m.memory_usage < size then
      (.error (.OutOfMemory least_aligned_size m.memory_size m.memory_usage), m)
    else
      let alloc : Allocation :=
        { bytes := List.replicate least_aligned_size 0
          relocations := []
          undef_mask := List.replicate least_aligned_size false
          align := align }
      let id := m.next_id
      (.ok { alloc_id := id, offset := align },
        { m with
          memory_usage := m.memory_usage + size
          alloc_map := (id, alloc) :: m.alloc_map
          next_id := m.next_id + 1 })

/-- `Memory::deallocate`: no-op on the ZST pointer; requires the base-pointer
invariant `ptr.offset = align`; removes the allocation and returns its full
buffer length (`alloc.bytes.len()`, that is `size + align`) to the budget.
The `usize` decrement can underflow in the source exactly when truncated `Nat`
subtraction truncates; the theorems below carry the no-underflow hypothesis. -/
def Memory.deallocate (m : Memory) (ptr : Pointer) :
    Except EvalError Unit × Memory :=
  if ptr.alloc_id = 0 then (.ok (), m)
  else
    match m.get ptr.alloc_id with
    | .error e => (.error e, m)
    | .ok alloc =>
      if ptr.offset ≠ alloc.align then
        (.error (.Unimplemented "bad pointer offset"), m)
      else
        (.ok (),
          { m with
            alloc_map := removeA m.alloc_map ptr.alloc_id
            memory_usage := m.memory_usage - alloc.bytes.length })

/-! ### Memory: relocations (memory.rs lines 587-639) -/

/-- `Memory::relocations`: the range query over the allocation's relocation
map. -/
def Memory.relocations (m : Memory) (ptr : Pointer) (size : Nat) :
    Except EvalError (List (Nat × Nat)) :=
  match m.get ptr.alloc_id with
  | .error e => .error e
  | .ok alloc => .ok (relocRange m.layout.pointer_size alloc.relocations ptr.offset size)

/-- The two conditional `set_range` calls of `Memory::clear_relocations`
(memory.rs lines 611-612): mark the parts of the outermost overlapping
relocations that fall outside `[start, stop)` undefined. -/
def clearMask (mask : List Bool) (first start stop last : Nat) : List Bool :=
  let mask := if first < start then maskSetRange mask first start false else mask
  if last > stop then maskSetRange mask stop last false else mask

/-- `Memory::clear_relocations`: find the overlapping relocations; if none,
return untouched.  Otherwise mark the parts of the outermost relocations that
fall outside `[offset, offset + size)` undefined, and drop every overlapping
entry. -/
def Memory.clear_relocations (m : Memory) (ptr : Pointer) (size : Nat) :
    Except EvalError Unit × Memory :=
  match m.relocations ptr size with
  | .error e => (.error e, m)
  | .ok rs =>
    let keys := rs.map Prod.fst
    if keys = [] then (.ok (), m)
    else
      let start := ptr.offset
      let stop := ptr.offset + size
      let first := listMin keys
      let last := listMax keys + m.layout.pointer_size
      match m.get ptr.alloc_id with
      | .error e => (.error e, m)
      | .ok alloc =>
        (.ok (), m.setAlloc ptr.alloc_id
          { alloc with
            undef_mask := clearMask alloc.undef_mask first start stop last
            relocations := relocRemoveKeys alloc.relocations keys })

/-- `Memory::check_relocation_edges`: no relocation may straddle either end of
the range (two zero-length range queries). -/
def Memory.check_relocation_edges (m : Memory) (ptr : Pointer) (size : Nat) :
    Except EvalError Unit :=
  match m.relocations ptr 0 with
  | .error e => .error e
  | .ok overlapping_start =>
    match m.relocations (ptr.offsetBy size) 0 with
    | .error e => .error e
    | .ok overlapping_end =>
      if overlapping_start.length + overlapping_end.length ≠ 0 then
        .error .ReadPointerAsBytes
      else
        .ok ()

/-- `Memory::copy_relocations`: shift the keys of the relocations overlapping
the source range to the destination and insert them there.
`offset + dest.offset - src.offset` is `usize` arithmetic; on the in-bounds
ranges the source reaches, the `Nat` expression agrees. -/
def Memory.copy_relocations (m : Memory) (src dest : Pointer) (size : Nat) :
    Except EvalError Unit × Memory :=
  match m.relocations src size with
  | .error e => (.error e, m)
  | .ok rs =>
    let relocations := rs.map (fun kv => (kv.1 + dest.offset - src.offset, kv.2))
    match m.get dest.alloc_id with
    | .error e => (.error e, m)
    | .ok alloc =>
      (.ok (), m.setAlloc dest.alloc_id
        { alloc with relocations := relocExtend alloc.relocations relocations })

/-! ### Memory: undefined-byte tracking (memory.rs lines 642-672) -/

/-- `Memory::copy_undef_mask`: save the `size` source bits, then store them at
the destination offsets.  Note the bits are read from the mask as it is at call
time (in `copy` this is after `get_bytes_mut(dest)` already ran). -/
def Memory.copy_undef_mask (m : Memory) (src dest : Pointer) (size : Nat) :
    Except EvalError Unit × Memory :=
  match m.get src.alloc_id with
  | .error e => (.error e, m)
  | .ok salloc =>
    let v := (List.range size).map (fun i => salloc.undef_mask.getD (src.offset + i) false)
    match m.get dest.alloc_id with
    | .error e => (.error e, m)
    | .ok dalloc =>
      (.ok (), m.setAlloc dest.alloc_id
        { dalloc with undef_mask := maskSetList dalloc.undef_mask dest.offset v })

/-- `Memory::check_defined`. -/
def Memory.check_defined (m : Memory) (ptr : Pointer) (size : Nat) :
    Except EvalError Unit :=
  match m.get ptr.alloc_id with
  | .error e => .error e
  | .ok alloc =>
    if !is_range_defined alloc.undef_mask ptr.offset (ptr.offset + size) then
      .error .ReadUndefBytes
    else
      .ok ()

/-- `Memory::mark_definedness`. -/
def Memory.mark_definedness (m : Memory) (ptr : Pointer) (size : Nat)
    (new_state : Bool) : Except EvalError Unit × Memory :=
  match m.get ptr.alloc_id with
  | .error e => (.error e, m)
  | .ok alloc =>
    (.ok (), m.setAlloc ptr.alloc_id
      { alloc with
        undef_mask := maskSetRange alloc.undef_mask ptr.offset (ptr.offset + size) new_state })

/-! ### Memory: byte accessors (memory.rs lines 369-406) -/

/-- `Memory::get_bytes_unchecked`: bounds check, then the raw byte range.
`get_bytes_unchecked_mut` performs the same lookup and bounds check; mutators
below reuse this function for the check and write through `listWriteRange`. -/
def Memory.get_bytes_unchecked (m : Memory) (ptr : Pointer) (size : Nat) :
    Except EvalError (List Nat) :=
  match m.get ptr.alloc_id with
  | .error e => .error e
  | .ok alloc =>
    if ptr.offset + size > alloc.bytes.length then
      .error (.PointerOutOfBounds ptr size alloc.bytes.length)
    else
      .ok ((alloc.bytes.drop ptr.offset).take size)

/-- `Memory::get_bytes`: fail `ReadPointerAsBytes` when any relocation
overlaps the queried range, then `check_defined`, then the raw bytes. -/
def Memory.get_bytes (m : Memory) (ptr : Pointer) (size : Nat) :
    Except EvalError (List Nat) :=
  match m.relocations ptr size with
  | .error e => .error e
  | .ok rs =>
    if rs.length ≠ 0 then .error .ReadPointerAsBytes
    else
      match m.check_defined ptr size with
      | .error e => .error e
      | .ok _ => m.get_bytes_unchecked ptr size

/-- The checks and state mutations of `Memory::get_bytes_mut`: clear the
overlapping relocations, mark the range defined, then the bounds check of
`get_bytes_unchecked_mut`.  In the source this returns `&mut [u8]` into which
the caller writes; here each caller performs its byte update (via
`listWriteRange`) after these checks succeed.  The leading frozen-allocation
check is modelled from the spec (see `Memory.frozen`). -/
def Memory.get_bytes_mut (m : Memory) (ptr : Pointer) (size : Nat) :
    Except EvalError Unit × Memory :=
  if ptr.alloc_id ∈ m.frozen then (.error .ModifiedConstantMemory, m)
  else
    match m.clear_relocations ptr size with
    | (.error e, m') => (.error e, m')
    | (.ok _, m') =>
      match m'.mark_definedness ptr size true with
      | (.error e, m'') => (.error e, m'')
      | (.ok _, m'') =>
        match m''.get ptr.alloc_id with
        | .error e => (.error e, m'')
        | .ok alloc =>
          if ptr.offset + size > alloc.bytes.length then
            (.error (.PointerOutOfBounds ptr size alloc.bytes.length), m'')
          else
            (.ok (), m'')

/-- Write `src` at `ptr` into the byte buffer (the caller-side effect of
writing through `get_bytes_mut`'s slice). -/
def Memory.writeRange (m : Memory) (ptr : Pointer) (src : List Nat) : Memory :=
  match lookupA m.alloc_map ptr.alloc_id with
  | none => m
  | some alloc =>
    m.setAlloc ptr.alloc_id
      { alloc with bytes := listWriteRange alloc.bytes ptr.offset src }

/-! ### Memory: reading and writing (memory.rs lines 411-583) -/

/-- `Memory::read_bytes`. -/
def Memory.read_bytes (m : Memory) (ptr : Pointer) (size : Nat) :
    Except EvalError (List Nat) :=
  m.get_bytes ptr size

/-- `Memory::write_bytes`. -/
def Memory.write_bytes (m : Memory) (ptr : Pointer) (src : List Nat) :
    Except EvalError Unit × Memory :=
  match m.get_bytes_mut ptr src.length with
  | (.error e, m') => (.error e, m')
  | (.ok _, m') => (.ok (), m'.writeRange ptr src)

/-- `Memory::write_repeat`. -/
def Memory.write_repeat (m : Memory) (ptr : Pointer) (val count : Nat) :
    Except EvalError Unit × Memory :=
  match m.get_bytes_mut ptr count with
  | (.error e, m') => (.error e, m')
  | (.ok _, m') => (.ok (), m'.writeRange ptr (List.replicate count val))

/-- `Memory::check_int_align` (memory.rs lines 505-513).  The wildcard arm
panics in the source ("bad integer size"); it is modelled as a classified
error and is unreachable from the source's call sites. -/
def Memory.check_int_align (m : Memory) (ptr : Pointer) (size : Nat) :
    Except EvalError Unit :=
  if size = 1 then ptr.check_align m.layout.i8_align
  else if size = 2 then ptr.check_align m.layout.i16_align
  else if size = 4 then ptr.check_align m.layout.i32_align
  else if size = 8 then ptr.check_align m.layout.i64_align
  else .error (.Unimplemented "bad integer size")

/-- `Memory::read_uint`. -/
def Memory.read_uint (m : Memory) (ptr : Pointer) (size : Nat) :
    Except EvalError Nat :=
  match m.check_int_align ptr size with
  | .error e => .error e
  | .ok _ =>
    match m.get_bytes ptr size with
    | .error e => .error e
    | .ok b => .ok (read_target_uint m.layout.endian b)

/-- `Memory::read_int`. -/
def Memory.read_int (m : Memory) (ptr : Pointer) (size : Nat) :
    Except EvalError Int :=
  match m.check_int_align ptr size with
  | .error e => .error e
  | .ok _ =>
    match m.get_bytes ptr size with
    | .error e => .error e
    | .ok b => .ok (read_target_int m.layout.endian b)

/-- `Memory::write_uint`. -/
def Memory.write_uint (m : Memory) (ptr : Pointer) (n size : Nat) :
    Except EvalError Unit × Memory :=
  match m.check_int_align ptr size with
  | .error e => (.error e, m)
  | .ok _ =>
    match m.get_bytes_mut ptr size with
    | (.error e, m') => (.error e, m')
    | (.ok _, m') =>
      (.ok (), m'.writeRange ptr (write_target_uint m.layout.endian size n))

/-- `Memory::write_int`. -/
def Memory.write_int (m : Memory) (ptr : Pointer) (n : Int) (size : Nat) :
    Except EvalError Unit × Memory :=
  match m.check_int_align ptr size with
  | .error e => (.error e, m)
  | .ok _ =>
    match m.get_bytes_mut ptr size with
    | (.error e, m') => (.error e, m')
    | (.ok _, m') =>
      (.ok (), m'.writeRange ptr (write_target_int m.layout.endian size n))

/-- `Memory::write_usize`. -/
def Memory.write_usize (m : Memory) (ptr : Pointer) (n : Nat) :
    Except EvalError Unit × Memory :=
  m.write_uint ptr n m.layout.pointer_size

/-- `Memory::read_usize`. -/
def Memory.read_usize (m : Memory) (ptr : Pointer) : Except EvalError Nat :=
  m.read_uint ptr m.layout.pointer_size

/-- `Memory::write_bool`. -/
def Memory.write_bool (m : Memory) (ptr : Pointer) (b : Bool) :
    Except EvalError Unit × Memory :=
  match ptr.check_align m.layout.i1_align with
  | .error e => (.error e, m)
  | .ok _ =>
    match m.get_bytes_mut ptr 1 with
    | (.error e, m') => (.error e, m')
    | (.ok _, m') => (.ok (), m'.writeRange ptr [if b then 1 else 0])

/-- `Memory::read_ptr`: `pointer_size` defined bytes plus a relocation entry
keyed exactly at `ptr.offset`; yields `(relocation target, numeric offset)`,
else `ReadBytesAsPointer`. -/
def Memory.read_ptr (m : Memory) (ptr : Pointer) : Except EvalError Pointer :=
  let size := m.layout.pointer_size
  match m.check_defined ptr size with
  | .error e => .error e
  | .ok _ =>
    match m.get_bytes_unchecked ptr size with
    | .error e => .error e
    | .ok bytes =>
      let offset := read_target_uint m.layout.endian bytes
      match m.get ptr.alloc_id with
      | .error e => .error e
      | .ok alloc =>
        match lookupA alloc.relocations ptr.offset with
        | some alloc_id => .ok { alloc_id := alloc_id, offset := offset }
        | none => .error .ReadBytesAsPointer

/-- `Memory::write_ptr`: write the numeric offset via `write_usize`, then
insert the relocation `(dest.offset → ptr.alloc_id)`. -/
def Memory.write_ptr (m : Memory) (dest ptr : Pointer) :
    Except EvalError Unit × Memory :=
  match m.write_usize dest ptr.offset with
  | (.error e, m') => (.error e, m')
  | (.ok _, m') =>
    match m'.get dest.alloc_id with
    | .error e => (.error e, m')
    | .ok alloc =>
      (.ok (), m'.setAlloc dest.alloc_id
        { alloc with relocations := relocInsert alloc.relocations dest.offset ptr.alloc_id })

/-- `Memory::copy` (memory.rs lines 411-432): check the source's relocation
edges; bounds-check the source (`get_bytes_unchecked_mut`); run the
`get_bytes_mut` mutations on the destination; move the bytes (`ptr::copy`
reads the source bytes, which no prior step of `copy` mutates, so capturing
them before the destination write realizes the overlap-safe `memmove`);
then `copy_undef_mask` and `copy_relocations`. -/
def Memory.copy (m : Memory) (src dest : Pointer) (size : Nat) :
    Except EvalError Unit × Memory :=
  match m.check_relocation_edges src size with
  | .error e => (.error e, m)
  | .ok _ =>
    match m.get_bytes_unchecked src size with
    | .error e => (.error e, m)
    | .ok src_bytes =>
      match m.get_bytes_mut dest size with
      | (.error e, m') => (.error e, m')
      | (.ok _, m') =>
        let m'' := m'.writeRange dest src_bytes
        match m''.copy_undef_mask src dest size with
        | (.error e, m3) => (.error e, m3)
        | (.ok _, m3) =>
          match m3.copy_relocations src dest size with
          | (.error e, m4) => (.error e, m4)
          | (.ok _, m4) => (.ok (), m4)

/-- `Memory::reallocate` (memory.rs lines 190-222): requires the base-pointer
invariant; ZST base reallocates fresh; growth appends zeroed bytes and
undefined mask bits (`memory_usage` grows by the buffer delta); shrinking
returns the delta to the budget, clears the relocations of the dropped tail,
and truncates buffer and mask in lockstep. -/
def Memory.reallocate (m : Memory) (ptr : Pointer) (new_size align : Nat) :
    Except EvalError Pointer × Memory :=
  match m.get ptr.alloc_id with
  | .error e => (.error e, m)
  | .ok alloc0 =>
    if ptr.offset ≠ alloc0.align then
      (.error (.Unimplemented "bad pointer offset"), m)
    else if ptr.alloc_id = 0 then m.allocate new_size align
    else
      let size := alloc0.bytes.length
      let least_aligned_size := new_size + align
      if least_aligned_size > size then
        let amount := least_aligned_size - size
        let m1 := { m with memory_usage := m.memory_usage + amount }
        match m1.get ptr.alloc_id with
        | .error e => (.error e, m1)
        | .ok alloc =>
          (.ok { alloc_id := ptr.alloc_id, offset := align },
            m1.setAlloc ptr.alloc_id
              { alloc with
                bytes := alloc.bytes ++ List.replicate amount 0
                undef_mask := alloc.undef_mask ++ List.replicate amount false })
      else if size > least_aligned_size then
        let m1 := { m with memory_usage := m.memory_usage - (size - least_aligned_size) }
        match m1.clear_relocations (ptr.offsetBy least_aligned_size)
            (size - least_aligned_size) with
        | (.error e, m2) => (.error e, m2)
        | (.ok _, m2) =>
          match m2.get ptr.alloc_id with
          | .error e => (.error e, m2)
          | .ok alloc =>
            (.ok { alloc_id := ptr.alloc_id, offset := align },
              m2.setAlloc ptr.alloc_id
                { alloc with
                  bytes := alloc.bytes.take least_aligned_size
                  undef_mask := alloc.undef_mask.take least_aligned_size })
      else
        (.ok { alloc_id := ptr.alloc_id, offset := align }, m)

/-- Modelled from the spec: `Memory::freeze` is invoked by `pop_stack_frame`
(interpreter/mod.rs line 369) but its definition is missing from the source
snapshot.  Per spec §4.7 and the glossary, *Freeze* is "the act of making an
allocation read-only upon completion of its initializer" and afterwards
"further writes fail"; we record the id so `get_bytes_mut` rejects it.  The
lookup mirrors `get_mut`'s failure modes on bogus ids. -/
def Memory.freeze (m : Memory) (alloc_id : Nat) : Except EvalError Unit × Memory :=
  match m.get alloc_id with
  | .error e => (.error e, m)
  | .ok _ => (.ok (), { m with frozen := alloc_id :: m.frozen })

/-! ### Interpreter frames (interpreter/mod.rs lines 28-165, 321-375) -/

/-- `StackPopCleanup`: the return-cleanup action of a frame. -/
inductive StackPopCleanup where
  | Freeze (alloc_id : Nat)
  | Goto (block : Nat)
  | None
deriving Repr, DecidableEq

/-- A stack `Frame`.  The MIR body, `def_id`, substitutions and span carry no
semantics the claims touch and are omitted; basic blocks are numbered `Nat`.
`var_offset`/`temp_offset` are kept as recorded by `push_stack_frame`. -/
structure Frame where
  return_ptr : Option Pointer
  return_to_block : StackPopCleanup
  locals : List Pointer
  var_offset : Nat
  temp_offset : Nat
  block : Nat
  stmt : Nat
deriving Repr, DecidableEq

/-- The parts of `EvalContext` the claims touch: the memory, the frame stack
(list head = top of the Rust `Vec`), and the frame cap. -/
structure EvalContext where
  memory : Memory
  stack : List Frame
  stack_limit : Nat
deriving Repr, DecidableEq

/-- The local-slot allocation loop of `push_stack_frame`:
`arg_tys.chain(var_tys).chain(temp_tys).map(|ty| allocate(size, align)).collect()`.
The type/layout adapter's answers for the chained declarations are abstracted
as the list of `(size, align)` pairs.  `collect` stops at the first error, and
the allocations already made persist. -/
def Memory.allocateLocals (m : Memory) (specs : List (Nat × Nat)) :
    Except EvalError (List Pointer) × Memory :=
  match specs with
  | [] => (.ok [], m)
  | (size, align) :: rest =>
    match m.allocate size align with
    | (.error e, m') => (.error e, m')
    | (.ok p, m') =>
      match m'.allocateLocals rest with
      | (.error e, m'') => (.error e, m'')
      | (.ok ps, m'') => (.ok (p :: ps), m'')

/-- `EvalContext::push_stack_frame` (interpreter/mod.rs lines 321-363):
allocate the local slots (aborting, without pushing, if that fails), push the
new frame, and only then check the frame cap: if the stack is now deeper than
`stack_limit`, return `StackFrameLimitReached` — leaving the frame pushed.
`num_args`/`num_vars` are the counts of argument and variable declarations. -/
def EvalContext.push_stack_frame (ecx : EvalContext) (localSpecs : List (Nat × Nat))
    (num_args num_vars : Nat) (return_ptr : Option Pointer)
    (return_to_block : StackPopCleanup) : Except EvalError Unit × EvalContext :=
  match ecx.memory.allocateLocals localSpecs with
  | (.error e, mem) => (.error e, { ecx with memory := mem })
  | (.ok locals, mem) =>
    let frame : Frame :=
      { return_ptr := return_ptr
        return_to_block := return_to_block
        locals := locals
        var_offset := num_args
        temp_offset := num_args + num_vars
        block := 0
        stmt := 0 }
    let ecx' := { ecx with memory := mem, stack := frame :: ecx.stack }
    if ecx'.stack.length > ecx'.stack_limit then
      (.error .StackFrameLimitReached, ecx')
    else
      (.ok (), ecx')

/-- `goto_block`, whose definition lives in the (absent) terminator module.
Modelled from the spec: "*Goto(block)* — ordinary call-return" forwards the
caller to the given block, i.e. the new top frame continues at `target`. -/
def EvalContext.goto_block (ecx : EvalContext) (target : Nat) : EvalContext :=
  match ecx.stack with
  | [] => ecx
  | f :: rest => { ecx with stack := { f with block := target, stmt := 0 } :: rest }

/-- `EvalContext::pop_stack_frame` (interpreter/mod.rs lines 365-375): pop the
top frame (the source panics on an empty stack; that arm is modelled as a
classified error) and apply its cleanup action — `Freeze` freezes the
allocation the frame initialized, `Goto` forwards the caller, `None` does
nothing. -/
def EvalContext.pop_stack_frame (ecx : EvalContext) :
    Except EvalError Unit × EvalContext :=
  match ecx.stack with
  | [] => (.error (.Unimplemented "tried to pop a stack frame, but there were none"), ecx)
  | frame :: rest =>
    let ecx1 := { ecx with stack := rest }
    match frame.return_to_block with
    | .Freeze alloc_id =>
      match ecx1.memory.freeze alloc_id with
      | (.error e, mem) => (.error e, { ecx1 with memory := mem })
      | (.ok _, mem) => (.ok (), { ecx1 with memory := mem })
    | .Goto target => (.ok (), ecx1.goto_block target)
    | .None => (.ok (), ecx1)

/-! ## Association-list lemmas -/

theorem lookupA_setA_self {α : Type} (l : List (Nat × α)) (k : Nat) (v v0 : α)
    (h : lookupA l k = some v0) : lookupA (setA l k v) k = some v := by
  induction l with
  | nil => simp [lookupA] at h
  | cons hd tl ih =>
    obtain ⟨k', v'⟩ := hd
    by_cases hk : k' = k
    · subst hk
      simp [setA, lookupA]
    · simp only [lookupA, if_neg hk] at h
      simp only [setA, if_neg hk, lookupA, if_neg hk]
      exact ih h

theorem lookupA_setA_ne {α : Type} (l : List (Nat × α)) (k j : Nat) (v : α)
    (h : j ≠ k) : lookupA (setA l k v) j = lookupA l j := by
  induction l with
  | nil => simp [setA]
  | cons hd tl ih =>
    obtain ⟨k', v'⟩ := hd
    by_cases hk : k' = k
    · subst hk
      simp only [setA, if_pos rfl, lookupA]
      rw [if_neg (fun hh => h hh.symm), if_neg (fun hh => h hh.symm)]
    · simp only [setA, if_neg hk, lookupA]
      by_cases hj : k' = j
      · simp [hj]
      · rw [if_neg hj, if_neg hj]
        exact ih

theorem setA_setA {α : Type} (l : List (Nat × α)) (k : Nat) (a b : α) :
    setA (setA l k a) k b = setA l k b := by
  induction l with
  | nil => simp [setA]
  | cons hd tl ih =>
    obtain ⟨k', v'⟩ := hd
    by_cases hk : k' = k
    · subst hk
      simp [setA]
    · simp [setA, if_neg hk, ih]

theorem setA_self {α : Type} (l : List (Nat × α)) (k : Nat) (v : α)
    (h : lookupA l k = some v) : setA l k v = l := by
  induction l with
  | nil => simp [lookupA] at h
  | cons hd tl ih =>
    obtain ⟨k', v'⟩ := hd
    by_cases hk : k' = k
    · subst hk
      rw [lookupA, if_pos rfl] at h
      cases h
      rw [setA, if_pos rfl]
    · rw [lookupA, if_neg hk] at h
      rw [setA, if_neg hk, ih h]

theorem lookupA_isSome_of_mem {α : Type} (l : List (Nat × α)) (k : Nat) (v : α)
    (h : (k, v) ∈ l) : (lookupA l k).isSome := by
  induction l with
  | nil => simp at h
  | cons hd tl ih =>
    obtain ⟨k', v'⟩ := hd
    rw [lookupA]
    by_cases hk : k' = k
    · rw [if_pos hk]
      rfl
    · rw [if_neg hk]
      rcases List.mem_cons.mp h with h1 | h1

      · cases h1
        exact absurd rfl hk
      · exact ih h1

theorem lookupA_filterKey {α : Type} (l : List (Nat × α)) (k0 k : Nat) :
    lookupA (l.filter (fun kv => decide (kv.1 ≠ k0))) k =
      if k = k0 then none else lookupA l k := by
  induction l with
  | nil => simp [lookupA]
  | cons hd tl ih =>
    obtain ⟨k', v'⟩ := hd
    rw [List.filter_cons]
    by_cases hk0 : k' = k0
    · rw [if_neg (by simp [hk0]), ih]
      by_cases hk : k = k0
      · rw [if_pos hk, if_pos hk]
      · rw [if_neg hk, if_neg hk, lookupA,
          if_neg (fun hh => hk (hh.symm.trans hk0))]
    · rw [if_pos (by simp [hk0]), lookupA, lookupA]
      by_cases hk : k' = k
      · rw [if_pos hk, if_pos hk, if_neg (fun hh => hk0 (hk.trans hh))]
      · rw [if_neg hk, if_neg hk, ih]

theorem lookupA_relocRemoveKeys (l : List (Nat × Nat)) (keys : List Nat) (k : Nat) :
    lookupA (relocRemoveKeys l keys) k = if k ∈ keys then none else lookupA l k := by
  induction keys generalizing l with
  | nil => simp [relocRemoveKeys]
  | cons k0 rest ih =>
    show lookupA (relocRemoveKeys (l.filter _) rest) k = _
    rw [ih]
    by_cases hmem : k ∈ rest
    · rw [if_pos hmem, if_pos (List.mem_cons.mpr (Or.inr hmem))]
    · rw [if_neg hmem, lookupA_filterKey]
      by_cases hk0 : k = k0
      · rw [if_pos hk0, if_pos (List.mem_cons.mpr (Or.inl hk0))]
      · rw [if_neg hk0, if_neg (by simp [hk0, hmem])]

theorem mem_relocRemoveKeys (l : List (Nat × Nat)) (keys : List Nat)
    (kv : Nat × Nat) :
    kv ∈ relocRemoveKeys l keys ↔ kv ∈ l ∧ kv.1 ∉ keys := by
  induction keys generalizing l with
  | nil => simp [relocRemoveKeys]
  | cons k0 rest ih =>
    show kv ∈ relocRemoveKeys (l.filter _) rest ↔ _
    rw [ih]
    simp only [List.mem_filter, decide_eq_true_eq, List.mem_cons]
    constructor
    · rintro ⟨⟨h1, h2⟩, h3⟩
      exact ⟨h1, by rintro (h | h) <;> [exact h2 h; exact h3 h]⟩
    · rintro ⟨h1, h2⟩
      exact ⟨⟨h1, fun h => h2 (Or.inl h)⟩, fun h => h2 (Or.inr h)⟩

theorem lookupA_relocInsert_self (l : List (Nat × Nat)) (k v : Nat) :
    lookupA (relocInsert l k v) k = some v := by
  induction l with
  | nil => simp [relocInsert, lookupA]
  | cons hd tl ih =>
    obtain ⟨k', v'⟩ := hd
    simp only [relocInsert]
    by_cases h1 : k < k'
    · rw [if_pos h1]
      simp [lookupA]
    · rw [if_neg h1]
      by_cases h2 : k = k'
      · rw [if_pos h2]
        simp [lookupA]
      · rw [if_neg h2]
        simp only [lookupA]
        rw [if_neg (fun hh => h2 hh.symm)]
        exact ih

theorem lookupA_relocInsert_ne (l : List (Nat × Nat)) (k j v : Nat) (h : j ≠ k) :
    lookupA (relocInsert l k v) j = lookupA l j := by
  induction l with
  | nil =>
    simp only [relocInsert, lookupA]
    rw [if_neg (fun hh => h hh.symm)]
  | cons hd tl ih =>
    obtain ⟨k', v'⟩ := hd
    simp only [relocInsert]
    by_cases h1 : k < k'
    · rw [if_pos h1]
      simp only [lookupA]
      rw [if_neg (fun hh => h hh.symm)]
    · rw [if_neg h1]
      by_cases h2 : k = k'
      · subst h2
        rw [if_pos rfl]
        simp only [lookupA]
        rw [if_neg (fun hh => h hh.symm), if_neg (fun hh => h hh.symm)]
      · rw [if_neg h2]
        simp only [lookupA]
        by_cases h3 : k' = j
        · rw [if_pos h3, if_pos h3]
        · rw [if_neg h3, if_neg h3, ih]

theorem mem_relocRange (ps : Nat) (rs : List (Nat × Nat)) (off size : Nat)
    (kv : Nat × Nat) :
    kv ∈ relocRange ps rs off size ↔
      kv ∈ rs ∧ off - (ps - 1) ≤ kv.1 ∧ kv.1 < off + size := by
  simp [relocRange, List.mem_filter]

theorem relocRange_eq_nil (ps : Nat) (rs : List (Nat × Nat)) (off size : Nat) :
    relocRange ps rs off size = [] ↔
      ∀ kv ∈ rs, ¬(off - (ps - 1) ≤ kv.1 ∧ kv.1 < off + size) := by
  simp [relocRange, List.filter_eq_nil_iff]

theorem lookupA_eq_none_of_relocRange_nil (ps : Nat) (rs : List (Nat × Nat))
    (off size k : Nat) (h : relocRange ps rs off size = [])
    (h1 : off - (ps - 1) ≤ k) (h2 : k < off + size) : lookupA rs k = none := by
  cases hlook : lookupA rs k with
  | none => rfl
  | some v =>
    exfalso
    have hmem : (k, v) ∈ rs := by
      clear h
      induction rs with
      | nil => simp [lookupA] at hlook
      | cons hd tl ih =>
        obtain ⟨k', v'⟩ := hd
        simp only [lookupA] at hlook
        by_cases hk : k' = k
        · subst hk
          rw [if_pos rfl] at hlook
          cases hlook
          exact List.mem_cons_self _ _
        · rw [if_neg hk] at hlook
          exact List.mem_cons.mpr (Or.inr (ih hlook))
    exact (relocRange_eq_nil ps rs off size).mp h _ hmem ⟨h1, h2⟩

/-! ## UndefMask lemmas -/

theorem length_setRangeInbounds (mask : List Bool) (s e : Nat) (b : Bool) :
    (setRangeInbounds mask s e b).length = mask.length := by
  induction mask generalizing s e with
  | nil => rfl
  | cons v rest ih => simp [setRangeInbounds, ih]

theorem getD_setRangeInbounds (mask : List Bool) (s e : Nat) (b : Bool) (i : Nat) :
    (setRangeInbounds mask s e b).getD i false =
      if s ≤ i ∧ i < e ∧ i < mask.length then b else mask.getD i false := by
  induction mask generalizing s e i with
  | nil =>
    simp [setRangeInbounds]
  | cons v rest ih =>
    cases i with
    | zero =>
      simp only [setRangeInbounds, List.getD_cons_zero, List.length_cons]
      by_cases h : s = 0 ∧ 0 < e
      · rw [if_pos h, if_pos ⟨by omega, by omega, by omega⟩]
      · rw [if_neg h, if_neg (by omega)]
    | succ j =>
      simp only [setRangeInbounds, List.getD_cons_succ, List.length_cons, ih]
      by_cases h : s - 1 ≤ j ∧ j < e - 1 ∧ j < rest.length
      · rw [if_pos h, if_pos (by omega)]
      · rw [if_neg h, if_neg (by omega)]

theorem length_maskSetRange (mask : List Bool) (s e : Nat) (b : Bool) :
    (maskSetRange mask s e b).length = max mask.length e := by
  rw [maskSetRange, length_setRangeInbounds]
  split
  · simp
    omega
  · simp
    omega

theorem getD_replicate_lt (r n : Nat) (b : Bool) (h : n < r) :
    (List.replicate r b).getD n false = b := by
  rw [List.getD_eq_getElem _ _ (by simpa using h)]
  simp

theorem getD_maskSetRange (mask : List Bool) (s e : Nat) (b : Bool) (i : Nat) :
    (maskSetRange mask s e b).getD i false =
      if (s ≤ i ∨ mask.length ≤ i) ∧ i < e then b else mask.getD i false := by
  rw [maskSetRange, getD_setRangeInbounds]
  by_cases hgrow : e > mask.length
  · rw [if_pos hgrow]
    have hlen : (mask ++ List.replicate (e - mask.length) b).length = e := by
      simp
      omega
    rw [hlen]
    by_cases hi : i < mask.length
    · rw [List.getD_append _ _ _ _ hi]
      by_cases h1 : s ≤ i ∧ i < e ∧ i < e
      · rw [if_pos h1, if_pos (by omega)]
      · rw [if_neg h1, if_neg (by omega)]
    · by_cases h2 : i < e
      · have hpad : (mask ++ List.replicate (e - mask.length) b).getD i false = b := by
          rw [List.getD_append_right _ _ _ _ (by omega)]
          exact getD_replicate_lt _ _ _ (by omega)
        by_cases h1 : s ≤ i
        · rw [if_pos ⟨h1, h2, h2⟩, if_pos (by omega)]
        · rw [if_neg (by omega), hpad, if_pos (by omega)]
      · rw [if_neg (by omega), if_neg (by omega),
          List.getD_append_right _ _ _ _ (by omega),
          List.getD_eq_default _ _ (by simp; omega),
          List.getD_eq_default _ _ (by omega)]
  · rw [if_neg hgrow]
    by_cases h1 : s ≤ i ∧ i < e ∧ i < mask.length
    · rw [if_pos h1, if_pos (by omega)]
    · rw [if_neg h1, if_neg (by omega)]

theorem is_range_defined_iff (mask : List Bool) (s e : Nat) :
    is_range_defined mask s e = true ↔
      e ≤ mask.length ∧ ∀ i, s ≤ i → i < e → mask.getD i false = true := by
  rw [is_range_defined]
  by_cases h : e > mask.length
  · rw [if_pos h]
    constructor
    · intro hfalse
      cases hfalse
    · rintro ⟨h1, _⟩
      omega
  · rw [if_neg h]
    rw [List.all_eq_true]
    constructor
    · intro hall
      refine ⟨by omega, fun i h1 h2 => ?_⟩
      exact hall i (List.mem_range'_1.mpr ⟨h1, by omega⟩)
    · rintro ⟨_, hall⟩ i hi
      obtain ⟨h1, h2⟩ := List.mem_range'_1.mp hi
      exact hall i h1 (by omega)

theorem is_range_defined_eq_false (mask : List Bool) (s e i : Nat)
    (h1 : s ≤ i) (h2 : i < e) (h3 : mask.getD i false = false) :
    is_range_defined mask s e = false := by
  cases hdef : is_range_defined mask s e
  · rfl
  · obtain ⟨_, hall⟩ := (is_range_defined_iff mask s e).mp hdef
    rw [hall i h1 h2] at h3
    cases h3

/-! ## Byte-encoding lemmas -/

theorem length_writeTargetUintLE (len n : Nat) :
    (writeTargetUintLE len n).length = len := by
  induction len generalizing n with
  | zero => rfl
  | succ l ih => simp [writeTargetUintLE, ih]

theorem readLE_writeLE (len n : Nat) :
    readTargetUintLE (writeTargetUintLE len n) = n % 256 ^ len := by
  induction len generalizing n with
  | zero => simp [writeTargetUintLE, readTargetUintLE, Nat.mod_one]
  | succ l ih =>
    rw [writeTargetUintLE, readTargetUintLE, ih, pow_succ, mul_comm (256 ^ l) 256,
      Nat.mod_mul]

theorem length_write_target_uint (e : Endian) (len n : Nat) :
    (write_target_uint e len n).length = len := by
  cases e <;> simp [write_target_uint, length_writeTargetUintLE]

theorem read_write_target_uint (e : Endian) (len n : Nat) :
    read_target_uint e (write_target_uint e len n) = n % 256 ^ len := by
  cases e with
  | Little => exact readLE_writeLE len n
  | Big =>
    rw [write_target_uint, read_target_uint, List.reverse_reverse]
    exact readLE_writeLE len n

/-! ## listWriteRange lemmas -/

theorem length_listWriteRange (l : List Nat) (off : Nat) (src : List Nat)
    (h : off + src.length ≤ l.length) :
    (listWriteRange l off src).length = l.length := by
  rw [listWriteRange]
  simp
  omega

theorem extract_listWriteRange (l : List Nat) (off : Nat) (src : List Nat)
    (h : off ≤ l.length) :
    ((listWriteRange l off src).drop off).take src.length = src := by
  rw [listWriteRange, List.append_assoc,
    List.drop_left' (by simp [List.length_take]; omega),
    List.take_left' rfl]

/-! ## clearMask lemmas -/

theorem length_clearMask_ge (mask : List Bool) (f s e l : Nat) :
    mask.length ≤ (clearMask mask f s e l).length := by
  rw [clearMask]
  by_cases h1 : f < s
  · rw [if_pos h1]
    by_cases h2 : l > e
    · rw [if_pos h2, length_maskSetRange, length_maskSetRange]
      omega
    · rw [if_neg h2, length_maskSetRange]
      omega
  · rw [if_neg h1]
    by_cases h2 : l > e
    · rw [if_pos h2, length_maskSetRange]
      omega
    · rw [if_neg h2]

theorem length_clearMask_ge_start (mask : List Bool) (f s e l : Nat) (h : f < s) :
    s ≤ (clearMask mask f s e l).length := by
  rw [clearMask, if_pos h]
  by_cases h2 : l > e
  · rw [if_pos h2, length_maskSetRange, length_maskSetRange]
    omega
  · rw [if_neg h2, length_maskSetRange]
    omega

theorem getD_clearMask_low (mask : List Bool) (f s e l i : Nat) (h : f < s)
    (hse : s ≤ e) (hi1 : f ≤ i) (hi2 : i < s) :
    (clearMask mask f s e l).getD i false = false := by
  rw [clearMask, if_pos h]
  have hm1 : (maskSetRange mask f s false).getD i false = false := by
    rw [getD_maskSetRange, if_pos ⟨Or.inl hi1, hi2⟩]
  have hm1len : s ≤ (maskSetRange mask f s false).length := by
    rw [length_maskSetRange]
    omega
  by_cases h2 : l > e
  · rw [if_pos h2, getD_maskSetRange, if_neg (by omega), hm1]
  · rw [if_neg h2, hm1]

theorem getD_clearMask_high (mask : List Bool) (f s e l i : Nat) (h : l > e)
    (hi1 : e ≤ i) (hi2 : i < l) :
    (clearMask mask f s e l).getD i false = false := by
  rw [clearMask]
  by_cases h1 : f < s
  · rw [if_pos h1, if_pos h, getD_maskSetRange, if_pos ⟨Or.inl hi1, hi2⟩]
  · rw [if_neg h1, if_pos h, getD_maskSetRange, if_pos ⟨Or.inl hi1, hi2⟩]

/-! ## Memory-operation characterization lemmas -/

/-- Abbreviation used throughout the proofs: the keys of the relocations
overlapping `[off, off + size)` per the source's range query. -/
def relocKeys (ps : Nat) (alloc : Allocation) (off size : Nat) : List Nat :=
  (relocRange ps alloc.relocations off size).map Prod.fst

theorem Memory.get_eq (m : Memory) (id : Nat) (alloc : Allocation)
    (h : lookupA m.alloc_map id = some alloc) : m.get id = .ok alloc := by
  rw [Memory.get, h]

theorem clear_relocations_spec (m : Memory) (p : Pointer) (size : Nat) (alloc : Allocation)
    (halloc : lookupA m.alloc_map p.alloc_id = some alloc) :
    ∃ alloc1,
      m.clear_relocations p size = (.ok (), m.setAlloc p.alloc_id alloc1) ∧
      alloc1.bytes = alloc.bytes ∧
      alloc1.align = alloc.align ∧
      alloc.undef_mask.length ≤ alloc1.undef_mask.length ∧
      (∀ k, lookupA alloc1.relocations k =
        if k ∈ relocKeys m.layout.pointer_size alloc p.offset size
          then none else lookupA alloc.relocations k) ∧
      (∀ kv, kv ∈ alloc1.relocations ↔ kv ∈ alloc.relocations ∧
        kv.1 ∉ relocKeys m.layout.pointer_size alloc p.offset size) ∧
      (relocKeys m.layout.pointer_size alloc p.offset size ≠ [] →
        listMin (relocKeys m.layout.pointer_size alloc p.offset size) < p.offset →
          p.offset ≤ alloc1.undef_mask.length ∧
          ∀ i, listMin (relocKeys m.layout.pointer_size alloc p.offset size) ≤ i →
            i < p.offset → alloc1.undef_mask.getD i false = false) ∧
      (relocKeys m.layout.pointer_size alloc p.offset size ≠ [] →
        p.offset + size < listMax (relocKeys m.layout.pointer_size alloc p.offset size)
            + m.layout.pointer_size →
          ∀ i, p.offset + size ≤ i →
            i < listMax (relocKeys m.layout.pointer_size alloc p.offset size)
              + m.layout.pointer_size →
            alloc1.undef_mask.getD i false = false) := by
  simp only [Memory.clear_relocations, Memory.relocations, Memory.get, halloc]
  by_cases hkeys : (relocRange m.layout.pointer_size alloc.relocations p.offset size).map Prod.fst = []
  · rw [if_pos hkeys]
    refine ⟨alloc, ?_, rfl, rfl, le_refl _, ?_, ?_, ?_, ?_⟩
    · rw [Memory.setAlloc, setA_self _ _ _ halloc]
    · intro k
      rw [relocKeys, hkeys]
      simp
    · intro kv
      rw [relocKeys, hkeys]
      simp
    · intro h
      exact absurd hkeys h
    · intro h
      exact absurd hkeys h
  · rw [if_neg hkeys]
    refine ⟨_, rfl, rfl, rfl, length_clearMask_ge _ _ _ _ _, ?_, ?_, ?_, ?_⟩
    · intro k
      show lookupA (relocRemoveKeys alloc.relocations _) k = _
      rw [lookupA_relocRemoveKeys, relocKeys]
    · intro kv
      show kv ∈ relocRemoveKeys alloc.relocations _ ↔ _
      rw [mem_relocRemoveKeys, relocKeys]
    · intro _ hfirst
      rw [relocKeys] at hfirst
      refine ⟨length_clearMask_ge_start _ _ _ _ _ hfirst, ?_⟩
      intro i hi1 hi2
      rw [relocKeys] at hi1
      exact getD_clearMask_low _ _ _ _ _ _ hfirst (by omega) hi1 hi2
    · intro _ hlast i hi1 hi2
      rw [relocKeys] at hlast hi2
      exact getD_clearMask_high _ _ _ _ _ _ hlast hi1 hi2

theorem lookupA_setAlloc_self (m : Memory) (id : Nat) (a a0 : Allocation)
    (h : lookupA m.alloc_map id = some a0) :
    lookupA (m.setAlloc id a).alloc_map id = some a :=
  lookupA_setA_self _ _ _ _ h

theorem lookupA_setAlloc_ne (m : Memory) (id j : Nat) (a : Allocation)
    (h : j ≠ id) :
    lookupA (m.setAlloc id a).alloc_map j = lookupA m.alloc_map j :=
  lookupA_setA_ne _ _ _ _ h

theorem setAlloc_setAlloc (m : Memory) (id : Nat) (a b : Allocation) :
    (m.setAlloc id a).setAlloc id b = m.setAlloc id b := by
  simp [Memory.setAlloc, setA_setA]

theorem get_bytes_mut_spec (m : Memory) (p : Pointer) (size : Nat) (alloc : Allocation)
    (halloc : lookupA m.alloc_map p.alloc_id = some alloc)
    (hfro : p.alloc_id ∉ m.frozen)
    (hbound : p.offset + size ≤ alloc.bytes.length) :
    ∃ alloc2,
      m.get_bytes_mut p size = (.ok (), m.setAlloc p.alloc_id alloc2) ∧
      alloc2.bytes = alloc.bytes ∧
      alloc2.align = alloc.align ∧
      (∀ i, p.offset ≤ i → i < p.offset + size → alloc2.undef_mask.getD i false = true) ∧
      p.offset + size ≤ alloc2.undef_mask.length ∧
      (∀ k, lookupA alloc2.relocations k =
        if k ∈ relocKeys m.layout.pointer_size alloc p.offset size then none
        else lookupA alloc.relocations k) ∧
      (∀ kv, kv ∈ alloc2.relocations ↔ kv ∈ alloc.relocations ∧
        kv.1 ∉ relocKeys m.layout.pointer_size alloc p.offset size) ∧
      (relocKeys m.layout.pointer_size alloc p.offset size ≠ [] →
        listMin (relocKeys m.layout.pointer_size alloc p.offset size) < p.offset →
          ∀ i, listMin (relocKeys m.layout.pointer_size alloc p.offset size) ≤ i →
            i < p.offset → alloc2.undef_mask.getD i false = false) ∧
      (relocKeys m.layout.pointer_size alloc p.offset size ≠ [] →
        p.offset + size < listMax (relocKeys m.layout.pointer_size alloc p.offset size)
            + m.layout.pointer_size →
          ∀ i, p.offset + size ≤ i →
            i < listMax (relocKeys m.layout.pointer_size alloc p.offset size)
              + m.layout.pointer_size →
            alloc2.undef_mask.getD i false = false) := by
  obtain ⟨alloc1, hclear, hbytes1, halign1, hlen1, hlook1, hmem1, hlow1, hhigh1⟩ :=
    clear_relocations_spec m p size alloc halloc
  have halloc1 : lookupA (m.setAlloc p.alloc_id alloc1).alloc_map p.alloc_id = some alloc1 :=
    lookupA_setAlloc_self m p.alloc_id alloc1 alloc halloc
  rw [Memory.get_bytes_mut, if_neg hfro, hclear]
  have hmark : (m.setAlloc p.alloc_id alloc1).mark_definedness p size true
      = (.ok (), m.setAlloc p.alloc_id
          { alloc1 with
            undef_mask := maskSetRange alloc1.undef_mask p.offset (p.offset + size) true }) := by
    simp only [Memory.mark_definedness, Memory.get, halloc1, setAlloc_setAlloc]
  simp only [hmark]
  have halloc2 : lookupA (m.setAlloc p.alloc_id
      { alloc1 with
        undef_mask := maskSetRange alloc1.undef_mask p.offset (p.offset + size) true }).alloc_map
        p.alloc_id
      = some { alloc1 with
          undef_mask := maskSetRange alloc1.undef_mask p.offset (p.offset + size) true } :=
    lookupA_setAlloc_self m p.alloc_id _ alloc halloc
  simp only [Memory.get, halloc2]
  rw [if_neg (by show ¬p.offset + size > alloc1.bytes.length; rw [hbytes1]; omega)]
  refine ⟨_, rfl, hbytes1, halign1, ?_, ?_, hlook1, hmem1, ?_, ?_⟩
  · intro i hi1 hi2
    show (maskSetRange alloc1.undef_mask p.offset (p.offset + size) true).getD i false = true
    rw [getD_maskSetRange, if_pos ⟨Or.inl hi1, hi2⟩]
  · show p.offset + size ≤ (maskSetRange alloc1.undef_mask p.offset (p.offset + size) true).length
    rw [length_maskSetRange]
    omega
  · intro hne hfirst i hi1 hi2
    obtain ⟨hoff_len, hbits⟩ := hlow1 hne hfirst
    show (maskSetRange alloc1.undef_mask p.offset (p.offset + size) true).getD i false = false
    rw [getD_maskSetRange, if_neg (by omega), hbits i hi1 hi2]
  · intro hne hlast i hi1 hi2
    show (maskSetRange alloc1.undef_mask p.offset (p.offset + size) true).getD i false = false
    rw [getD_maskSetRange, if_neg (by omega), hhigh1 hne hlast i hi1 hi2]

theorem mem_of_lookupA_eq_some {α : Type} (l : List (Nat × α)) (k : Nat) (v : α)
    (h : lookupA l k = some v) : (k, v) ∈ l := by
  induction l with
  | nil => simp [lookupA] at h
  | cons hd tl ih =>
    obtain ⟨k', v'⟩ := hd
    rw [lookupA] at h
    by_cases hk : k' = k
    · rw [if_pos hk] at h
      cases h
      cases hk
      exact List.mem_cons_self _ _
    · rw [if_neg hk] at h
      exact List.mem_cons.mpr (Or.inr (ih h))

theorem writeRange_eq (m : Memory) (p : Pointer) (src : List Nat) (alloc : Allocation)
    (h : lookupA m.alloc_map p.alloc_id = some alloc) :
    m.writeRange p src =
      m.setAlloc p.alloc_id
        { alloc with bytes := listWriteRange alloc.bytes p.offset src } := by
  rw [Memory.writeRange, h]

theorem write_uint_spec (m : Memory) (p : Pointer) (n size : Nat) (alloc : Allocation)
    (halloc : lookupA m.alloc_map p.alloc_id = some alloc)
    (hfro : p.alloc_id ∉ m.frozen)
    (hbound : p.offset + size ≤ alloc.bytes.length)
    (hal : m.check_int_align p size = .ok ()) :
    ∃ alloc3,
      m.write_uint p n size = (.ok (), m.setAlloc p.alloc_id alloc3) ∧
      alloc3.bytes =
        listWriteRange alloc.bytes p.offset (write_target_uint m.layout.endian size n) ∧
      alloc3.align = alloc.align ∧
      (∀ i, p.offset ≤ i → i < p.offset + size → alloc3.undef_mask.getD i false = true) ∧
      p.offset + size ≤ alloc3.undef_mask.length ∧
      (∀ k, lookupA alloc3.relocations k =
        if k ∈ relocKeys m.layout.pointer_size alloc p.offset size then none
        else lookupA alloc.relocations k) := by
  obtain ⟨alloc2, hgbm, hbytes2, halign2, hdef2, hlen2, hlook2, hmem2, hlow2, hhigh2⟩ :=
    get_bytes_mut_spec m p size alloc halloc hfro hbound
  simp only [Memory.write_uint, hal, hgbm]
  rw [writeRange_eq _ _ _ alloc2 (lookupA_setAlloc_self m p.alloc_id alloc2 alloc halloc),
    setAlloc_setAlloc]
  exact ⟨_, rfl, by rw [hbytes2], halign2, hdef2, hlen2, hlook2⟩

theorem read_ptr_eval (m : Memory) (p : Pointer) (alloc : Allocation)
    (halloc : lookupA m.alloc_map p.alloc_id = some alloc)
    (hdef : is_range_defined alloc.undef_mask p.offset (p.offset + m.layout.pointer_size) = true)
    (hb : ¬p.offset + m.layout.pointer_size > alloc.bytes.length) :
    m.read_ptr p =
      match lookupA alloc.relocations p.offset with
      | some alloc_id =>
        .ok (Pointer.mk alloc_id (read_target_uint m.layout.endian
          ((alloc.bytes.drop p.offset).take m.layout.pointer_size)))
      | none => .error .ReadBytesAsPointer := by
  simp only [Memory.read_ptr, Memory.check_defined, Memory.get, halloc, hdef,
    Bool.not_true, Memory.get_bytes_unchecked, if_neg hb, Bool.false_eq_true,
    if_false]

/-! ## Claims -/

/-- C1: for a pointer `p` into a live byte allocation, suitably aligned and in
bounds for a pointer-sized (8-byte) access, `write_ptr(p, (A, off))` followed
by `read_ptr(p)` succeeds and returns exactly `(A, off)`; conversely writing
any integer to the same slot via `write_uint` and then `read_ptr(p)` fails
with `ReadBytesAsPointer`. -/
theorem C1_write_ptr_read_ptr_roundtrip (m : Memory) (p : Pointer) (alloc : Allocation)
    (A off : Nat)
    (halloc : lookupA m.alloc_map p.alloc_id = some alloc)
    (hfro : p.alloc_id ∉ m.frozen)
    (hps : m.layout.pointer_size = 8)
    (halign : p.offset % m.layout.i64_align = 0)
    (hbound : p.offset + 8 ≤ alloc.bytes.length)
    (hoff : off < 2 ^ 64) :
    (∃ m', m.write_ptr p (Pointer.mk A off) = (.ok (), m') ∧
      m'.read_ptr p = .ok (Pointer.mk A off)) ∧
    (∀ n, ∃ m'', m.write_uint p n 8 = (.ok (), m'') ∧
      m''.read_ptr p = .error .ReadBytesAsPointer) := by
  have hal : m.check_int_align p 8 = .ok () := by
    rw [Memory.check_int_align]
    norm_num [Pointer.check_align, halign]
  have hpart2 : ∀ n : Nat, ∃ m'', m.write_uint p n 8 = (.ok (), m'') ∧
      m''.read_ptr p = .error .ReadBytesAsPointer := by
    intro n
    obtain ⟨alloc3, hwu, hbytes3, halign3, hdef3, hlen3, hlook3⟩ :=
      write_uint_spec m p n 8 alloc halloc hfro hbound hal
    refine ⟨_, hwu, ?_⟩
    have halloc3 : lookupA (m.setAlloc p.alloc_id alloc3).alloc_map p.alloc_id = some alloc3 :=
      lookupA_setAlloc_self _ _ _ _ halloc
    have hblen : alloc3.bytes.length = alloc.bytes.length := by
      rw [hbytes3, length_listWriteRange _ _ _ (by rw [length_write_target_uint]; omega)]
    have hdef : is_range_defined alloc3.undef_mask p.offset
        (p.offset + (m.setAlloc p.alloc_id alloc3).layout.pointer_size) = true := by
      show is_range_defined alloc3.undef_mask p.offset (p.offset + m.layout.pointer_size) = true
      rw [hps]
      exact (is_range_defined_iff _ _ _).mpr ⟨hlen3, hdef3⟩
    have hb : ¬p.offset + (m.setAlloc p.alloc_id alloc3).layout.pointer_size
        > alloc3.bytes.length := by
      show ¬p.offset + m.layout.pointer_size > alloc3.bytes.length
      rw [hps, hblen]
      omega
    rw [read_ptr_eval _ _ _ halloc3 hdef hb]
    have hnone : lookupA alloc3.relocations p.offset = none := by
      rw [hlook3 p.offset]
      by_cases hmem : p.offset ∈ relocKeys m.layout.pointer_size alloc p.offset 8
      · rw [if_pos hmem]
      · rw [if_neg hmem]
        cases hcase : lookupA alloc.relocations p.offset with
        | none => rfl
        | some v =>
          exact absurd
            (List.mem_map.mpr ⟨(p.offset, v),
              (mem_relocRange _ _ _ _ _).mpr
                ⟨mem_of_lookupA_eq_some _ _ _ hcase, by omega, by omega⟩, rfl⟩)
            hmem
    rw [hnone]
  refine ⟨?_, hpart2⟩
  obtain ⟨alloc3, hwu, hbytes3, halign3, hdef3, hlen3, hlook3⟩ :=
    write_uint_spec m p off 8 alloc halloc hfro hbound hal
  have hwusize : m.write_usize p off = (.ok (), m.setAlloc p.alloc_id alloc3) := by
    rw [Memory.write_usize, hps]
    exact hwu
  have halloc3 : lookupA (m.setAlloc p.alloc_id alloc3).alloc_map p.alloc_id = some alloc3 :=
    lookupA_setAlloc_self _ _ _ _ halloc
  have hwp : m.write_ptr p (Pointer.mk A off) =
      (.ok (), m.setAlloc p.alloc_id
        { alloc3 with relocations := relocInsert alloc3.relocations p.offset A }) := by
    simp only [Memory.write_ptr, hwusize, Memory.get, halloc3, setAlloc_setAlloc]
  refine ⟨_, hwp, ?_⟩
  have halloc4 : lookupA (m.setAlloc p.alloc_id
      { alloc3 with relocations := relocInsert alloc3.relocations p.offset A }).alloc_map
        p.alloc_id
      = some { alloc3 with relocations := relocInsert alloc3.relocations p.offset A } :=
    lookupA_setAlloc_self _ _ _ _ halloc
  have hblen : alloc3.bytes.length = alloc.bytes.length := by
    rw [hbytes3, length_listWriteRange _ _ _ (by rw [length_write_target_uint]; omega)]
  have hdef4 : is_range_defined
      ({ alloc3 with relocations := relocInsert alloc3.relocations p.offset A }).undef_mask
      p.offset (p.offset + (m.setAlloc p.alloc_id
        { alloc3 with relocations := relocInsert alloc3.relocations p.offset A }).layout.pointer_size)
      = true := by
    show is_range_defined alloc3.undef_mask p.offset (p.offset + m.layout.pointer_size) = true
    rw [hps]
    exact (is_range_defined_iff _ _ _).mpr ⟨hlen3, hdef3⟩
  have hb4 : ¬p.offset + (m.setAlloc p.alloc_id
      { alloc3 with relocations := relocInsert alloc3.relocations p.offset A }).layout.pointer_size
      > ({ alloc3 with relocations := relocInsert alloc3.relocations p.offset A }).bytes.length := by
    show ¬p.offset + m.layout.pointer_size > alloc3.bytes.length
    rw [hps, hblen]
    omega
  rw [read_ptr_eval _ _ _ halloc4 hdef4 hb4]
  have hsome : lookupA
      ({ alloc3 with relocations := relocInsert alloc3.relocations p.offset A }).relocations
      p.offset = some A := lookupA_relocInsert_self _ _ _
  rw [hsome]
  have hval : read_target_uint m.layout.endian ((alloc3.bytes.drop p.offset).take 8) = off := by
    have hext := extract_listWriteRange alloc.bytes p.offset
      (write_target_uint m.layout.endian 8 off) (by omega)
    rw [length_write_target_uint] at hext
    rw [hbytes3, hext, read_write_target_uint,
      show (256 : Nat) ^ 8 = 2 ^ 64 by norm_num, Nat.mod_eq_of_lt hoff]
  show Except.ok (Pointer.mk A
    (read_target_uint m.layout.endian ((alloc3.bytes.drop p.offset).take m.layout.pointer_size)))
    = Except.ok (Pointer.mk A off)
  rw [hps, hval]

/-- C3: a read through `get_bytes` fails `ReadPointerAsBytes` whenever the
relocation range query `[offset - (pointer_size - 1), offset + size)` is
non-empty — in particular for any stored relocation whose key lies in that
window, so a relocation straddling the range's start is caught — and fails
`ReadUndefBytes` whenever no relocation overlaps but some byte of the range is
undefined. -/
theorem C3_get_bytes_error_conditions (m : Memory) (p : Pointer) (size : Nat)
    (alloc : Allocation)
    (halloc : lookupA m.alloc_map p.alloc_id = some alloc) :
    (relocRange m.layout.pointer_size alloc.relocations p.offset size ≠ [] →
      m.read_bytes p size = .error .ReadPointerAsBytes) ∧
    (∀ k v, lookupA alloc.relocations k = some v →
      p.offset - (m.layout.pointer_size - 1) ≤ k → k < p.offset + size →
      m.read_bytes p size = .error .ReadPointerAsBytes) ∧
    (relocRange m.layout.pointer_size alloc.relocations p.offset size = [] →
      (∃ i, p.offset ≤ i ∧ i < p.offset + size ∧ alloc.undef_mask.getD i false = false) →
      m.read_bytes p size = .error .ReadUndefBytes) := by
  have hptr : relocRange m.layout.pointer_size alloc.relocations p.offset size ≠ [] →
      m.read_bytes p size = .error .ReadPointerAsBytes := by
    intro hne
    simp only [Memory.read_bytes, Memory.get_bytes, Memory.relocations, Memory.get, halloc]
    rw [if_pos (fun hlen => hne (List.length_eq_zero.mp hlen))]
  refine ⟨hptr, ?_, ?_⟩
  · intro k v hlook h1 h2
    refine hptr (fun hnil => ?_)
    have : (k, v) ∈ relocRange m.layout.pointer_size alloc.relocations p.offset size :=
      (mem_relocRange _ _ _ _ _).mpr ⟨mem_of_lookupA_eq_some _ _ _ hlook, h1, h2⟩
    rw [hnil] at this
    simp at this
  · intro hnil hundef
    obtain ⟨i, hi1, hi2, hi3⟩ := hundef
    have hdef : is_range_defined alloc.undef_mask p.offset (p.offset + size) = false :=
      is_range_defined_eq_false _ _ _ i hi1 hi2 hi3
    simp only [Memory.read_bytes, Memory.get_bytes, Memory.relocations, Memory.get, halloc]
    rw [if_neg (by rw [hnil]; simp)]
    simp only [Memory.check_defined, Memory.get, halloc, hdef, Bool.not_false, if_true]

/-- C8: a read through `get_bytes` whose range runs past the end of the byte
buffer fails `ReadUndefBytes`, not `PointerOutOfBounds`, because the
definedness check runs before the bounds check and `is_range_defined` is false
whenever the queried end exceeds the mask's length (the mask length equals the
buffer length on every allocation the allocator produces). -/
theorem C8_oob_read_fails_undef (m : Memory) (p : Pointer) (size : Nat)
    (alloc : Allocation)
    (halloc : lookupA m.alloc_map p.alloc_id = some alloc)
    (hmask : alloc.undef_mask.length = alloc.bytes.length)
    (hrel : relocRange m.layout.pointer_size alloc.relocations p.offset size = [])
    (hoob : p.offset + size > alloc.bytes.length) :
    m.read_bytes p size = .error .ReadUndefBytes ∧
    (∀ (mask : List Bool) (s e : Nat), mask.length < e →
      is_range_defined mask s e = false) := by
  have hrange : ∀ (mask : List Bool) (s e : Nat), mask.length < e →
      is_range_defined mask s e = false := by
    intro mask s e h
    rw [is_range_defined, if_pos h]
  refine ⟨?_, hrange⟩
  simp only [Memory.read_bytes, Memory.get_bytes, Memory.relocations, Memory.get, halloc]
  rw [if_neg (by rw [hrel]; simp)]
  simp only [Memory.check_defined, Memory.get, halloc,
    hrange alloc.undef_mask p.offset (p.offset + size) (by omega),
    Bool.not_false, if_true]

/-- C4: a successful write of `n` bytes — `write_bytes`, `write_repeat`, or
any write going through `get_bytes_mut` — marks the written range fully
defined and removes every relocation overlapping it (its relocation range
query afterwards is empty); for partially covered outermost relocations, the
bytes outside the written range become undefined.  `alloc2` is the resulting
allocation state shared by all writes of size `n = src.length`, up to the
written bytes themselves. -/
theorem C4_write_defines_and_clears_relocations (m : Memory) (p : Pointer)
    (src : List Nat) (val : Nat) (alloc : Allocation)
    (halloc : lookupA m.alloc_map p.alloc_id = some alloc)
    (hfro : p.alloc_id ∉ m.frozen)
    (hbound : p.offset + src.length ≤ alloc.bytes.length) :
    ∃ alloc2 : Allocation,
      is_range_defined alloc2.undef_mask p.offset (p.offset + src.length) = true ∧
      relocRange m.layout.pointer_size alloc2.relocations p.offset src.length = [] ∧
      (∀ k, lookupA alloc2.relocations k =
        if k ∈ relocKeys m.layout.pointer_size alloc p.offset src.length then none
        else lookupA alloc.relocations k) ∧
      (relocKeys m.layout.pointer_size alloc p.offset src.length ≠ [] →
        listMin (relocKeys m.layout.pointer_size alloc p.offset src.length) < p.offset →
          ∀ i, listMin (relocKeys m.layout.pointer_size alloc p.offset src.length) ≤ i →
            i < p.offset → alloc2.undef_mask.getD i false = false) ∧
      (relocKeys m.layout.pointer_size alloc p.offset src.length ≠ [] →
        p.offset + src.length <
            listMax (relocKeys m.layout.pointer_size alloc p.offset src.length)
              + m.layout.pointer_size →
          ∀ i, p.offset + src.length ≤ i →
            i < listMax (relocKeys m.layout.pointer_size alloc p.offset src.length)
              + m.layout.pointer_size →
            alloc2.undef_mask.getD i false = false) ∧
      m.write_bytes p src = (.ok (), m.setAlloc p.alloc_id
        { alloc2 with bytes := listWriteRange alloc2.bytes p.offset src }) ∧
      m.write_repeat p val src.length = (.ok (), m.setAlloc p.alloc_id
        { alloc2 with
          bytes := listWriteRange alloc2.bytes p.offset (List.replicate src.length val) }) := by
  obtain ⟨alloc2, hgbm, hbytes2, halign2, hdef2, hlen2, hlook2, hmem2, hlow2, hhigh2⟩ :=
    get_bytes_mut_spec m p src.length alloc halloc hfro hbound
  have halloc2 : lookupA (m.setAlloc p.alloc_id alloc2).alloc_map p.alloc_id = some alloc2 :=
    lookupA_setAlloc_self _ _ _ _ halloc
  refine ⟨alloc2, (is_range_defined_iff _ _ _).mpr ⟨hlen2, hdef2⟩, ?_, hlook2, hlow2, hhigh2,
    ?_, ?_⟩
  · rw [relocRange_eq_nil]
    intro kv hkv hin
    obtain ⟨hmem, hnotkey⟩ := (hmem2 kv).mp hkv
    exact hnotkey (List.mem_map.mpr ⟨kv,
      (mem_relocRange _ _ _ _ _).mpr ⟨hmem, hin.1, hin.2⟩, rfl⟩)
  · simp only [Memory.write_bytes, hgbm]
    rw [writeRange_eq _ _ _ alloc2 halloc2, setAlloc_setAlloc]
  · simp only [Memory.write_repeat, hgbm]
    rw [writeRange_eq _ _ _ alloc2 halloc2, setAlloc_setAlloc]

/-- C5: for an allocation created by `allocate(16, 8)` (buffer and mask of
`16 + 8 = 24` bytes, align `8`, later writes keep these lengths and keep
every relocation's 8 bytes inside the buffer), `reallocate` of its base
pointer to `32/8` grows in place: it returns a pointer to the same allocation
at offset `8`, buffer and mask grow in lockstep to `40`, the pre-existing init
bits are preserved, the new bytes are undefined, and `read_int` on bytes
`16..20` relative to the returned pointer fails `ReadUndefBytes`. -/
theorem C5_reallocate_grows_in_place (m : Memory) (id : Nat) (alloc : Allocation)
    (halloc : lookupA m.alloc_map id = some alloc)
    (hid : id ≠ 0)
    (hps : m.layout.pointer_size = 8)
    (h32 : m.layout.i32_align = 4)
    (halign : alloc.align = 8)
    (hbytes : alloc.bytes.length = 24)
    (hmask : alloc.undef_mask.length = 24)
    (hreloc : ∀ kv ∈ alloc.relocations, kv.1 + 8 ≤ 24) :
    ∃ m' : Memory, m.reallocate (Pointer.mk id 8) 32 8 = (.ok (Pointer.mk id 8), m') ∧
      ∃ alloc' : Allocation, lookupA m'.alloc_map id = some alloc' ∧
        alloc'.bytes.length = 40 ∧
        alloc'.undef_mask.length = 40 ∧
        (∀ i, i < 24 → alloc'.undef_mask.getD i false = alloc.undef_mask.getD i false) ∧
        (∀ i, 24 ≤ i → i < 40 → alloc'.undef_mask.getD i false = false) ∧
        m'.read_int (Pointer.mk id (8 + 16)) 4 = .error .ReadUndefBytes := by
  have hre : m.reallocate (Pointer.mk id 8) 32 8 =
      (.ok (Pointer.mk id 8),
        ({ m with memory_usage := m.memory_usage + (40 - alloc.bytes.length) }).setAlloc id
          { alloc with
            bytes := alloc.bytes ++ List.replicate (40 - alloc.bytes.length) 0
            undef_mask := alloc.undef_mask ++ List.replicate (40 - alloc.bytes.length) false }) := by
    simp only [Memory.reallocate, Memory.get, halloc, halign]
    rw [if_neg (by norm_num), if_neg hid, if_pos (by omega)]
  refine ⟨_, hre, ?_⟩
  have halloc' : lookupA (({ m with
      memory_usage := m.memory_usage + (40 - alloc.bytes.length) }).setAlloc id
        { alloc with
          bytes := alloc.bytes ++ List.replicate (40 - alloc.bytes.length) 0
          undef_mask := alloc.undef_mask ++ List.replicate (40 - alloc.bytes.length) false
          }).alloc_map id
      = some { alloc with
          bytes := alloc.bytes ++ List.replicate (40 - alloc.bytes.length) 0
          undef_mask := alloc.undef_mask ++ List.replicate (40 - alloc.bytes.length) false } :=
    lookupA_setAlloc_self _ _ _ alloc halloc
  refine ⟨_, halloc', ?_, ?_, ?_, ?_, ?_⟩
  · simp [hbytes]
  · simp [hbytes, hmask]
  · intro i hi
    exact List.getD_append _ _ _ _ (by omega)
  · intro i hi1 hi2
    show (alloc.undef_mask ++ List.replicate (40 - alloc.bytes.length) false).getD i false = false
    rw [List.getD_append_right _ _ _ _ (by omega)]
    rcases Nat.lt_or_ge (i - alloc.undef_mask.length) (40 - alloc.bytes.length) with h | h
    · exact getD_replicate_lt _ _ _ h
    · exact List.getD_eq_default _ _ (by simp; omega)
  · have hundef : is_range_defined
        (alloc.undef_mask ++ List.replicate (40 - alloc.bytes.length) false) 24 28 = false := by
      refine is_range_defined_eq_false _ _ _ 24 (by omega) (by omega) ?_
      rw [List.getD_append_right _ _ _ _ (by omega)]
      exact getD_replicate_lt _ _ _ (by omega)
    have hrelnil : relocRange m.layout.pointer_size alloc.relocations 24 4 = [] := by
      rw [relocRange_eq_nil]
      intro kv hkv
      have := hreloc kv hkv
      rw [hps]
      omega
    have hal : ∀ M : Memory, M.layout = m.layout →
        M.check_int_align (Pointer.mk id (8 + 16)) 4 = .ok () := by
      intro M hM
      rw [Memory.check_int_align, if_neg (by norm_num), if_neg (by norm_num), if_pos rfl,
        Pointer.check_align, hM, if_pos (by rw [h32]; norm_num)]
    have hlook2 : lookupA (setA m.alloc_map id
        { alloc with
          bytes := alloc.bytes ++ List.replicate (40 - alloc.bytes.length) 0
          undef_mask := alloc.undef_mask ++ List.replicate (40 - alloc.bytes.length) false })
        id = some { alloc with
          bytes := alloc.bytes ++ List.replicate (40 - alloc.bytes.length) 0
          undef_mask := alloc.undef_mask ++ List.replicate (40 - alloc.bytes.length) false } :=
      lookupA_setA_self _ _ _ _ halloc
    simp [Memory.read_int, Memory.setAlloc, hal, Memory.get_bytes, Memory.relocations,
      Memory.get, hlook2, hrelnil, Memory.check_defined, hundef]

/-- C10: for `size > 0`, a successful `allocate(size, align)` raises
`memory_usage` by exactly `size` although the backing buffer holds
`size + align` bytes, and `deallocate` of the returned pointer lowers
`memory_usage` by the full buffer length `size + align`; the pair therefore
leaves `memory_usage` exactly `align` lower than before (the hypothesis
`align ≤ memory_usage` is the no-underflow condition of the source's `usize`
decrement). -/
theorem C10_allocate_deallocate_usage (m : Memory) (size align : Nat)
    (hsize : 0 < size)
    (hbudget : ¬m.memory_size - m.memory_usage < size)
    (hid : m.next_id ≠ 0)
    (hunder : align ≤ m.memory_usage) :
    ∃ (p : Pointer) (m1 m2 : Memory) (alloc : Allocation),
      m.allocate size align = (.ok p, m1) ∧
      m1.memory_usage = m.memory_usage + size ∧
      lookupA m1.alloc_map p.alloc_id = some alloc ∧
      alloc.bytes.length = size + align ∧
      m1.deallocate p = (.ok (), m2) ∧
      m2.memory_usage = m1.memory_usage - (size + align) ∧
      m2.memory_usage + align = m.memory_usage := by
  have halloc : m.allocate size align =
      (.ok (Pointer.mk m.next_id align),
        { m with
          memory_usage := m.memory_usage + size
          alloc_map := (m.next_id,
            Allocation.mk (List.replicate (size + align) 0) []
              (List.replicate (size + align) false) align) :: m.alloc_map
          next_id := m.next_id + 1 }) := by
    rw [Memory.allocate, if_neg (by omega), if_neg hbudget]
  have hlookup : lookupA ((m.next_id,
      Allocation.mk (List.replicate (size + align) 0) []
        (List.replicate (size + align) false) align) :: m.alloc_map) m.next_id
      = some (Allocation.mk (List.replicate (size + align) 0) []
          (List.replicate (size + align) false) align) := by
    rw [lookupA, if_pos rfl]
  have hde : ({ m with
      memory_usage := m.memory_usage + size
      alloc_map := (m.next_id,
        Allocation.mk (List.replicate (size + align) 0) []
          (List.replicate (size + align) false) align) :: m.alloc_map
      next_id := m.next_id + 1 } : Memory).deallocate (Pointer.mk m.next_id align)
      = (.ok (), { m with
          memory_usage := m.memory_usage + size
            - (List.replicate (size + align) (0 : Nat)).length
          alloc_map := removeA ((m.next_id,
            Allocation.mk (List.replicate (size + align) 0) []
              (List.replicate (size + align) false) align) :: m.alloc_map) m.next_id
          next_id := m.next_id + 1 }) := by
    simp [Memory.deallocate, Memory.get, hlookup, hid]
  refine ⟨_, _, _, _, halloc, rfl, hlookup, by simp, hde, by simp, ?_⟩
  show m.memory_usage + size - (List.replicate (size + align) (0 : Nat)).length + align
    = m.memory_usage
  simp
  omega

/-! ## Concrete fixtures (a little-endian 64-bit layout, as on x86-64) -/

/-- A little-endian layout with 8-byte pointers and the usual integer/float
ABI alignments. -/
def cLayout : TargetDataLayout :=
  TargetDataLayout.mk 8 .Little 1 1 2 4 8 4 8

/-- A fresh memory with a 1000-byte budget. -/
def cMem0 : Memory :=
  Memory.mk [] 0 1000 [] 1 cLayout []

/-- The memory after `allocate(16, 1)`: allocation 1 holds 17 zeroed,
fully-undefined bytes and the returned pointer is `(1, 1)`. -/
def cMem16 : Memory :=
  (cMem0.allocate 16 1).2

/-- C2: the claim fails on the code.  Failing input: in the fresh allocation
from `allocate(16, 1)` (every byte undefined), `copy(src = (1,1),
dest = (1,5), 8)` — overlapping ranges in the same allocation.  The claim
requires destination byte `9` (source byte `5`) to keep the source's pre-copy
init bit (undefined), but the copy succeeds and leaves byte `9` marked
defined: `get_bytes_mut(dest)` runs `mark_definedness(dest, 8, true)` before
`copy_undef_mask` saves the source bits, so the saved bits for source indices
inside the destination range are already overwritten — contradicting the
overlap-safety the source's own comments ("The bits have to be saved locally
before writing to dest in case src and dest overlap") and spec §8.5 demand. -/
theorem C2_copy_overlap_init_bit_bug :
    (cMem16.copy (Pointer.mk 1 1) (Pointer.mk 1 5) 8).1 = .ok () ∧
    (lookupA cMem16.alloc_map 1).map (fun a => a.undef_mask.getD 5 false) = some false ∧
    (lookupA ((cMem16.copy (Pointer.mk 1 1) (Pointer.mk 1 5) 8).2).alloc_map 1).map
      (fun a => a.undef_mask.getD 9 false) = some true :=
  ⟨rfl, rfl, rfl⟩

/-! ## Frozen allocations: writes fail -/

theorem get_bytes_mut_frozen (m : Memory) (p : Pointer) (size : Nat)
    (h : p.alloc_id ∈ m.frozen) :
    m.get_bytes_mut p size = (.error .ModifiedConstantMemory, m) := by
  rw [Memory.get_bytes_mut, if_pos h]

theorem write_uint_frozen (m : Memory) (p : Pointer) (n sz : Nat)
    (h : p.alloc_id ∈ m.frozen) :
    ∃ e, m.write_uint p n sz = (.error e, m) := by
  cases hc : m.check_int_align p sz with
  | error e => exact ⟨e, by rw [Memory.write_uint, hc]⟩
  | ok u =>
    exact ⟨.ModifiedConstantMemory,
      by simp only [Memory.write_uint, hc, get_bytes_mut_frozen _ _ _ h]⟩

/-- C6: popping the frame that computed a constant's initial value (its
cleanup action is `Freeze`) succeeds and freezes that allocation read-only:
every subsequent write into it — `write_bytes`, `write_repeat`, `write_uint`,
`write_int`, `write_ptr`, `write_bool` — fails. -/
theorem C6_pop_freezes_constant_allocation (ecx : EvalContext) (f : Frame)
    (rest : List Frame) (a : Nat) (alloc : Allocation)
    (hstack : ecx.stack = f :: rest)
    (hclean : f.return_to_block = .Freeze a)
    (halloc : lookupA ecx.memory.alloc_map a = some alloc) :
    ∃ ecx' : EvalContext, ecx.pop_stack_frame = (.ok (), ecx') ∧
      ecx'.stack = rest ∧
      ∀ p : Pointer, p.alloc_id = a →
        (∀ src, ((ecx'.memory.write_bytes p src).1).isOk = false) ∧
        (∀ v c, ((ecx'.memory.write_repeat p v c).1).isOk = false) ∧
        (∀ n sz, ((ecx'.memory.write_uint p n sz).1).isOk = false) ∧
        (∀ n sz, ((ecx'.memory.write_int p n sz).1).isOk = false) ∧
        (∀ q, ((ecx'.memory.write_ptr p q).1).isOk = false) ∧
        (∀ b, ((ecx'.memory.write_bool p b).1).isOk = false) := by
  simp only [EvalContext.pop_stack_frame, hstack, hclean, Memory.freeze, Memory.get, halloc]
  refine ⟨_, rfl, rfl, ?_⟩
  intro p hp
  have hfro : p.alloc_id ∈ ({ ecx.memory with
      frozen := a :: ecx.memory.frozen } : Memory).frozen := by
    rw [hp]
    exact List.mem_cons_self _ _
  refine ⟨?_, ?_, ?_, ?_, ?_, ?_⟩
  · intro src
    simp only [Memory.write_bytes, get_bytes_mut_frozen _ _ _ hfro]
    rfl
  · intro v c
    simp only [Memory.write_repeat, get_bytes_mut_frozen _ _ _ hfro]
    rfl
  · intro n sz
    obtain ⟨e, he⟩ := write_uint_frozen _ p n sz hfro
    rw [he]
    rfl
  · intro n sz
    cases hc : ({ ecx.memory with
        frozen := a :: ecx.memory.frozen } : Memory).check_int_align p sz with
    | error e =>
      rw [Memory.write_int, hc]
      rfl
    | ok u =>
      simp only [Memory.write_int, hc, get_bytes_mut_frozen _ _ _ hfro]
      rfl
  · intro q
    obtain ⟨e, he⟩ := write_uint_frozen ({ ecx.memory with
      frozen := a :: ecx.memory.frozen } : Memory) p q.offset
      ({ ecx.memory with frozen := a :: ecx.memory.frozen } : Memory).layout.pointer_size hfro
    simp only [Memory.write_ptr, Memory.write_usize, he]
    rfl
  · intro b
    cases hc : p.check_align ({ ecx.memory with
        frozen := a :: ecx.memory.frozen } : Memory).layout.i1_align with
    | error e =>
      rw [Memory.write_bool, hc]
      rfl
    | ok u =>
      simp only [Memory.write_bool, hc, get_bytes_mut_frozen _ _ _ hfro]
      rfl

/-- C7: with frame cap `stack_limit`, a push whose local allocations succeed
always deepens the stack by one, succeeds exactly when the resulting depth is
at most `stack_limit`, and returns `StackFrameLimitReached` exactly when the
resulting depth is `stack_limit + 1` or more — so unbounded recursion errors
precisely at the `(stack_limit + 1)`-th push. -/
theorem C7_stack_frame_limit (ecx : EvalContext) (specs : List (Nat × Nat))
    (na nv : Nat) (rp : Option Pointer) (rb : StackPopCleanup)
    (ptrs : List Pointer) (mem' : Memory)
    (hallo : ecx.memory.allocateLocals specs = (.ok ptrs, mem')) :
    (((ecx.push_stack_frame specs na nv rp rb).2).stack.length = ecx.stack.length + 1) ∧
    (ecx.stack.length + 1 ≤ ecx.stack_limit ↔
      (ecx.push_stack_frame specs na nv rp rb).1 = .ok ()) ∧
    (ecx.stack.length + 1 > ecx.stack_limit ↔
      (ecx.push_stack_frame specs na nv rp rb).1 = .error .StackFrameLimitReached) := by
  simp only [EvalContext.push_stack_frame, hallo, List.length_cons]
  by_cases hc : ecx.stack.length + 1 > ecx.stack_limit
  · rw [if_pos hc]
    exact ⟨by simp, iff_of_false (by omega) (by intro h; cases h),
      iff_of_true hc rfl⟩
  · rw [if_neg hc]
    exact ⟨by simp, iff_of_true (by omega) rfl,
      iff_of_false hc (by intro h; cases h)⟩

/-- C9: `push_stack_frame` pushes the new frame — locals already allocated —
before checking the frame cap, so when the stack was already at the limit it
returns `StackFrameLimitReached` with the frame still on the stack: the
resulting context keeps the post-allocation memory and has depth
`stack_limit + 1`; the error undoes neither the push nor the allocations. -/
theorem C9_failed_push_keeps_frame (ecx : EvalContext) (specs : List (Nat × Nat))
    (na nv : Nat) (rp : Option Pointer) (rb : StackPopCleanup)
    (ptrs : List Pointer) (mem' : Memory)
    (hallo : ecx.memory.allocateLocals specs = (.ok ptrs, mem'))
    (hfull : ecx.stack.length = ecx.stack_limit) :
    ecx.push_stack_frame specs na nv rp rb =
      (.error .StackFrameLimitReached,
        { ecx with
          memory := mem'
          stack := Frame.mk rp rb ptrs na (na + nv) 0 0 :: ecx.stack }) ∧
    (((ecx.push_stack_frame specs na nv rp rb).2).stack.length = ecx.stack_limit + 1) := by
  have hpush : ecx.push_stack_frame specs na nv rp rb =
      (.error .StackFrameLimitReached,
        { ecx with
          memory := mem'
          stack := Frame.mk rp rb ptrs na (na + nv) 0 0 :: ecx.stack }) := by
    simp only [EvalContext.push_stack_frame, hallo, List.length_cons]
    rw [if_pos (by omega)]
  exact ⟨hpush, by rw [hpush]; simp [hfull]⟩

/-! ## Witnesses: the claim theorems applied at concrete inputs -/

/-- The memory after `allocate(32, 8)`: allocation 1 holds 40 zeroed,
fully-undefined bytes, returned pointer `(1, 8)`. -/
def cMemA : Memory :=
  (cMem0.allocate 32 8).2

/-- The allocation `allocate(32, 8)` creates. -/
def cAllocA : Allocation :=
  Allocation.mk (List.replicate 40 0) [] (List.replicate 40 false) 8

/-- Witness for C1 at `allocate(32, 8)`, `A = 77`, `off = 12345`, integer
`999`. -/
theorem C1_roundtrip_witness :
    (∃ m', cMemA.write_ptr (Pointer.mk 1 8) (Pointer.mk 77 12345) = (.ok (), m') ∧
      m'.read_ptr (Pointer.mk 1 8) = .ok (Pointer.mk 77 12345)) ∧
    (∃ m'', cMemA.write_uint (Pointer.mk 1 8) 999 8 = (.ok (), m'') ∧
      m''.read_ptr (Pointer.mk 1 8) = .error .ReadBytesAsPointer) :=
  ⟨(C1_write_ptr_read_ptr_roundtrip cMemA (Pointer.mk 1 8) cAllocA 77 12345
      (by decide) (by decide) rfl (by decide) (by decide) (by decide)).1,
    (C1_write_ptr_read_ptr_roundtrip cMemA (Pointer.mk 1 8) cAllocA 77 12345
      (by decide) (by decide) rfl (by decide) (by decide) (by decide)).2 999⟩

/-- An allocation with one relocation (at key 4, targeting allocation 7) and
every byte undefined. -/
def cAllocR : Allocation :=
  Allocation.mk (List.replicate 24 0) [(4, 7)] (List.replicate 24 false) 8

/-- A memory holding `cAllocR` as allocation 1. -/
def cMemR : Memory :=
  Memory.mk [(1, cAllocR)] 24 1000 [] 2 cLayout []

/-- Witness for C3: the relocation at key 4 straddles the start of the range
`[8, 12)` (the query window is `[1, 12)`), so the read fails
`ReadPointerAsBytes`. -/
theorem C3_read_straddling_relocation_witness :
    cMemR.read_bytes (Pointer.mk 1 8) 4 = .error .ReadPointerAsBytes :=
  (C3_get_bytes_error_conditions cMemR (Pointer.mk 1 8) 4 cAllocR (by decide)).1
    (by decide)

/-- Witness for C8: reading 10 bytes at offset 10 of the 17-byte allocation 1
runs past the end and fails `ReadUndefBytes`. -/
theorem C8_oob_read_witness :
    cMem16.read_bytes (Pointer.mk 1 10) 10 = .error .ReadUndefBytes :=
  (C8_oob_read_fails_undef cMem16 (Pointer.mk 1 10) 10
    (Allocation.mk (List.replicate 17 0) [] (List.replicate 17 false) 1)
    (by decide) (by decide) (by decide) (by decide)).1

/-- Witness for C4: writing `[1, 2, 3, 4]` at `(1, 8)` over the straddling
relocation at key 4 succeeds. -/
theorem C4_write_witness :
    (cMemR.write_bytes (Pointer.mk 1 8) [1, 2, 3, 4]).1 = .ok () := by
  obtain ⟨alloc2, hdef, hrel, hlook, hlow, hhigh, hwb, hwr⟩ :=
    C4_write_defines_and_clears_relocations cMemR (Pointer.mk 1 8) [1, 2, 3, 4] 0
      cAllocR (by decide) (by decide) (by decide)
  rw [hwb]

/-- The memory after `allocate(16, 8)` (the S3 scenario). -/
def cMemB : Memory :=
  (cMem0.allocate 16 8).2

/-- The allocation `allocate(16, 8)` creates. -/
def cAllocB : Allocation :=
  Allocation.mk (List.replicate 24 0) [] (List.replicate 24 false) 8

/-- Witness for C5 at the spec's S3 scenario. -/
theorem C5_reallocate_witness :
    ∃ m' : Memory, cMemB.reallocate (Pointer.mk 1 8) 32 8 = (.ok (Pointer.mk 1 8), m') ∧
      ∃ alloc' : Allocation, lookupA m'.alloc_map 1 = some alloc' ∧
        alloc'.bytes.length = 40 ∧
        alloc'.undef_mask.length = 40 ∧
        (∀ i, i < 24 → alloc'.undef_mask.getD i false = cAllocB.undef_mask.getD i false) ∧
        (∀ i, 24 ≤ i → i < 40 → alloc'.undef_mask.getD i false = false) ∧
        m'.read_int (Pointer.mk 1 (8 + 16)) 4 = .error .ReadUndefBytes :=
  C5_reallocate_grows_in_place cMemB 1 cAllocB (by decide) (by decide) rfl rfl rfl
    (by decide) (by decide) (by simp [cAllocB])

/-- The memory after `allocate(4, 4)` (a constant's 4-byte slot). -/
def cMemF : Memory :=
  (cMem0.allocate 4 4).2

/-- An evaluator whose top frame computed the initial value of a constant
living in allocation 1 (cleanup `Freeze 1`). -/
def cEcxF : EvalContext :=
  EvalContext.mk cMemF [Frame.mk none (.Freeze 1) [] 0 0 0 0] 10

/-- Witness for C6: after popping the `Freeze 1` frame, a `write_bytes` into
allocation 1 fails. -/
theorem C6_freeze_witness :
    (((cEcxF.pop_stack_frame).2).memory.write_bytes (Pointer.mk 1 4) [1]).1.isOk
      = false := by
  obtain ⟨ecx', hpop, hstack, hw⟩ :=
    C6_pop_freezes_constant_allocation cEcxF (Frame.mk none (.Freeze 1) [] 0 0 0 0) [] 1
      (Allocation.mk (List.replicate 8 0) [] (List.replicate 8 false) 4)
      rfl rfl (by decide)
  rw [hpop]
  exact (hw (Pointer.mk 1 4) rfl).1 [1]

/-- An evaluator with an empty stack and frame cap 1. -/
def cEcx0 : EvalContext :=
  EvalContext.mk cMem0 [] 1

/-- Witness for C7: with cap 1 and an empty stack, the first push (resulting
depth 1) succeeds. -/
theorem C7_push_witness :
    (cEcx0.push_stack_frame [] 0 0 none .None).1 = .ok () :=
  ((C7_stack_frame_limit cEcx0 [] 0 0 none .None [] cMem0 rfl).2.1).mp (by decide)

/-- An evaluator already at its frame cap (depth 1, cap 1). -/
def cEcx1 : EvalContext :=
  EvalContext.mk cMem0 [Frame.mk none .None [] 0 0 0 0] 1

/-- Witness for C9: a push at the cap errors but leaves the stack at depth
`stack_limit + 1 = 2`. -/
theorem C9_push_witness :
    (((cEcx1.push_stack_frame [] 0 0 none .None).2).stack.length = 2) :=
  (C9_failed_push_keeps_frame cEcx1 [] 0 0 none .None [] cMem0 rfl rfl).2

/-- A fresh memory whose budget is 1000 bytes with 8 bytes already in use. -/
def cMemC : Memory :=
  Memory.mk [] 8 1000 [] 1 cLayout []

/-- Witness for C10 at `allocate(10, 4)` on a memory with usage 8: usage goes
to 18, deallocation removes the full 14-byte buffer, leaving usage 4. -/
theorem C10_usage_witness :
    ∃ (p : Pointer) (m1 m2 : Memory) (alloc : Allocation),
      cMemC.allocate 10 4 = (.ok p, m1) ∧
      m1.memory_usage = cMemC.memory_usage + 10 ∧
      lookupA m1.alloc_map p.alloc_id = some alloc ∧
      alloc.bytes.length = 10 + 4 ∧
      m1.deallocate p = (.ok (), m2) ∧
      m2.memory_usage = m1.memory_usage - (10 + 4) ∧
      m2.memory_usage + 4 = cMemC.memory_usage :=
  C10_allocate_deallocate_usage cMemC 10 4 (by decide) (by decide) (by decide)
    (by decide)

end Miri
